import Mathlib

/-!
Shallow embedding of the event bridge iterator from
src/packages/events/src/event-iterator.ts (class AsyncEventIterator).

Modelling decisions:

* The class state is a record, one field per TypeScript field; in addition we
  model the part of the external EventEmitter that the bridge owns: the list
  of listener registrations made by this instance (emitterListeners), each a
  pair of the channel name it was registered under and a unique identifier of
  the closure object (fresh ids from nextListenerId).  The JavaScript object
  this.listeners (keyed by name, assignment overwrites) is an
  insertion-ordered association list (listeners), exactly mirroring object
  key semantics for non-numeric string keys.
* Promises are modelled by identifiers: every call of next / return / throw
  gets a fresh call id (nextCallId).  The settlement of a promise is recorded
  in an append-only log as a pair of the id and a Completion: resolved
  carries the IteratorResult (its value, an optional EventEntry, and its done
  flag), rejected carries the rejection value.  A pull whose promise is
  deferred puts its call id into promiseQueue, and the later resolve/reject
  performed by pushEvent or drain appends to the same log.
* Firing a channel on the emitter (fire) invokes, in registration order,
  every listener this bridge registered under that name; each such listener
  is the closure created by createListener and simply calls pushEvent with
  the payload and its bound channel name, exactly as in the source.
* Node's emitter.removeListener removes at most one registration matching
  the given closure.  Since every closure id is registered exactly once,
  this is removal of the unique pair (eraseEntry).
-/

/-- One observed notification: the entry type EventEntry of the source. -/
structure EventEntry (α : Type) where
  name : String
  data : Option α
deriving DecidableEq

/-- The constructor options type AsyncEventIteratorOptions of the source;
a missing field is represented by none (respectively false). -/
structure AsyncEventIteratorOptions where
  doneEventName : Option String
  errorEventName : Option String
  listenNow : Bool
deriving DecidableEq

/-- The default value of the options parameter in the source constructor:
doneEventName 'done', errorEventName 'error', listenNow absent. -/
def defaultOptions : AsyncEventIteratorOptions :=
  { doneEventName := some "done", errorEventName := some "error", listenNow := false }

/-- The settlement of a promise handed out by the bridge: resolved with an
IteratorResult (value and done flag, the value possibly undefined), or
rejected with a value. -/
inductive Completion (α : Type) where
  | resolved : Option (EventEntry α) → Bool → Completion α
  | rejected : Option α → Completion α
deriving DecidableEq

/-- The whole state of one AsyncEventIterator instance, together with this
instance's registrations on the external emitter and the promise log. -/
structure AsyncEventIterator (α : Type) where
  options : AsyncEventIteratorOptions
  eventNames : List String
  promiseQueue : List Nat
  eventQueue : List (EventEntry α)
  listening : Bool
  listenersAdded : Bool
  listeners : List (String × Nat)
  doneListener : Option Nat
  errorListener : Option Nat
  emitterListeners : List (String × Nat)
  nextListenerId : Nat
  nextCallId : Nat
  log : List (Nat × Completion α)
deriving DecidableEq

variable {α : Type}

/-- Assignment obj[k] = v on a JavaScript object represented as an
insertion-ordered association list: overwrite in place if the key exists,
otherwise append. -/
def objInsert (obj : List (String × Nat)) (k : String) (v : Nat) : List (String × Nat) :=
  if obj.any (fun p => decide (p.1 = k)) then
    obj.map (fun p => if p.1 = k then (k, v) else p)
  else
    obj ++ [(k, v)]

/-- emitter.removeListener(name, fn): remove the first (hence, ids being
unique, the only) registration equal to the given pair. -/
def eraseEntry : List (String × Nat) → (String × Nat) → List (String × Nat)
  | [], _ => []
  | x :: xs, kv => if x = kv then xs else x :: eraseEntry xs kv

/-- Method pushEvent(event, eventName) of the source: if the promise queue
is non-empty, shift its head and reject it (error channel) or resolve it
with the entry and the done flag; otherwise append the entry to the event
queue. -/
def pushEvent (m : AsyncEventIterator α) (event : α) (eventName : String) :
    AsyncEventIterator α :=
  let entry : EventEntry α := { name := eventName, data := some event }
  match m.promiseQueue with
  | p :: rest =>
    if m.options.errorEventName = some eventName then
      { m with promiseQueue := rest, log := m.log ++ [(p, Completion.rejected (some event))] }
    else
      { m with promiseQueue := rest,
               log := m.log ++
                 [(p, Completion.resolved (some entry)
                       (decide (m.options.doneEventName = some eventName)))] }
  | [] => { m with eventQueue := m.eventQueue ++ [entry] }

/-- Method pullEvent() of the source, for the call with id cid: if the event
queue is non-empty, shift its head and reject (error channel) or resolve the
caller; otherwise defer by appending the call id to the promise queue. -/
def pullEvent (m : AsyncEventIterator α) (cid : Nat) : AsyncEventIterator α :=
  match m.eventQueue with
  | entry :: rest =>
    if m.options.errorEventName = some entry.name then
      { m with eventQueue := rest, log := m.log ++ [(cid, Completion.rejected entry.data)] }
    else
      { m with eventQueue := rest,
               log := m.log ++
                 [(cid, Completion.resolved (some entry)
                         (decide (m.options.doneEventName = some entry.name)))] }
  | [] => { m with promiseQueue := m.promiseQueue ++ [cid] }

/-- The body of the registration loop of method addEventListeners(): create
a fresh listener closure for the name, register it on the emitter, and store
it in the listeners object. -/
def addOneListener (s : AsyncEventIterator α) (name : String) : AsyncEventIterator α :=
  { s with emitterListeners := s.emitterListeners ++ [(name, s.nextListenerId)],
           listeners := objInsert s.listeners name s.nextListenerId,
           nextListenerId := s.nextListenerId + 1 }

/-- The registration loop of method addEventListeners() over eventNames. -/
def addNameListeners (m : AsyncEventIterator α) : AsyncEventIterator α :=
  m.eventNames.foldl addOneListener m

/-- The section of method addEventListeners() for the done sentinel: when
the configured done name is truthy, register the done listener. -/
def addDoneListener (m : AsyncEventIterator α) : AsyncEventIterator α :=
  match m.options.doneEventName with
  | some n =>
    if n = "" then m
    else
      { m with doneListener := some m.nextListenerId,
               emitterListeners := m.emitterListeners ++ [(n, m.nextListenerId)],
               nextListenerId := m.nextListenerId + 1 }
  | none => m

/-- The section of method addEventListeners() for the error sentinel: when
the configured error name is truthy, register the error listener. -/
def addErrorListener (m : AsyncEventIterator α) : AsyncEventIterator α :=
  match m.options.errorEventName with
  | some n =>
    if n = "" then m
    else
      { m with errorListener := some m.nextListenerId,
               emitterListeners := m.emitterListeners ++ [(n, m.nextListenerId)],
               nextListenerId := m.nextListenerId + 1 }
  | none => m

/-- Method addEventListeners() of the source: one listener per element of
eventNames, then (when the option is truthy) the done listener and the error
listener. -/
def addEventListeners (m : AsyncEventIterator α) : AsyncEventIterator α :=
  addErrorListener (addDoneListener (addNameListeners m))

/-- The body of the removal loop of method removeEventListeners(): one
emitter.removeListener call for a tracked registration. -/
def removeOneListener (s : AsyncEventIterator α) (kv : String × Nat) : AsyncEventIterator α :=
  { s with emitterListeners := eraseEntry s.emitterListeners kv }

/-- The removal loop of method removeEventListeners() over the listeners
object, which deletes every key it visits. -/
def removeNameListeners (m : AsyncEventIterator α) : AsyncEventIterator α :=
  { m.listeners.foldl removeOneListener m with listeners := [] }

/-- The section of method removeEventListeners() for the done listener. -/
def removeDoneListener (m : AsyncEventIterator α) : AsyncEventIterator α :=
  match m.doneListener with
  | some i =>
    { m with emitterListeners :=
               eraseEntry m.emitterListeners (m.options.doneEventName.getD "", i),
             doneListener := none }
  | none => m

/-- The section of method removeEventListeners() for the error listener. -/
def removeErrorListener (m : AsyncEventIterator α) : AsyncEventIterator α :=
  match m.errorListener with
  | some i =>
    { m with emitterListeners :=
               eraseEntry m.emitterListeners (m.options.errorEventName.getD "", i),
             errorListener := none }
  | none => m

/-- Method removeEventListeners() of the source: remove every registration
recorded in the listeners object, then the done listener and the error
listener when present. -/
def removeEventListeners (m : AsyncEventIterator α) : AsyncEventIterator α :=
  removeErrorListener (removeDoneListener (removeNameListeners m))

/-- The tail of method drain(): resolve every deferred pull with an
IteratorResult whose value is undefined and whose done flag is true, then
splice both queues empty. -/
def drainFlush (t : AsyncEventIterator α) : AsyncEventIterator α :=
  { t with log := t.log ++ t.promiseQueue.map (fun p => (p, Completion.resolved none true)),
           promiseQueue := [], eventQueue := [] }

/-- Method drain() of the source: when still listening, stop listening,
remove the listeners when they were added, resolve every deferred pull with
a done result, and empty both queues. -/
def drain (m : AsyncEventIterator α) : AsyncEventIterator α :=
  if m.listening then
    drainFlush (if m.listenersAdded then removeEventListeners { m with listening := false }
                else { m with listening := false })
  else m

/-- The JavaScript expression (s || d) for an optional string s: the default
applies when s is undefined or the empty string. -/
def jsOr (o : Option String) (d : String) : String :=
  match o with
  | some s => if s = "" then d else s
  | none => d

/-- Method return() of the source, for the call with id cid: drain, then
resolve the caller with a done IteratorResult whose value is an entry with
undefined data and name (doneEventName || 'done'). -/
def returnOp (m : AsyncEventIterator α) (cid : Nat) : AsyncEventIterator α :=
  { drain m with log := (drain m).log ++
      [(cid, Completion.resolved
               (some { name := jsOr (drain m).options.doneEventName "done", data := none })
               true)] }

/-- Method throw(error) of the source, for the call with id cid: drain, then
reject the caller with the error. -/
def throwOp (m : AsyncEventIterator α) (e : α) (cid : Nat) : AsyncEventIterator α :=
  { drain m with log := (drain m).log ++ [(cid, Completion.rejected (some e))] }

/-- Method next() of the source, for the call with id cid: when no longer
listening delegate to return(); otherwise add the listeners on first use and
delegate to pullEvent(). -/
def nextOp (m : AsyncEventIterator α) (cid : Nat) : AsyncEventIterator α :=
  if m.listening = false then returnOp m cid
  else
    pullEvent (if m.listenersAdded = false then
                 { addEventListeners m with listenersAdded := true }
               else m) cid

/-- The emitter firing a channel with a payload: every listener this bridge
registered under that name runs, in registration order; each is the closure
from createListener and calls pushEvent with the payload and its bound
name. -/
def fire (m : AsyncEventIterator α) (channel : String) (payload : α) :
    AsyncEventIterator α :=
  (m.emitterListeners.filter (fun h => decide (h.1 = channel))).foldl
    (fun s h => pushEvent s payload h.1) m

/-- The field initialisation part of the constructor of AsyncEventIterator,
for the effective options object opts. -/
def initBase (eventNames : List String) (opts : AsyncEventIteratorOptions) :
    AsyncEventIterator α :=
  { options := opts, eventNames := eventNames,
    promiseQueue := [], eventQueue := [],
    listening := true, listenersAdded := false,
    listeners := [], doneListener := none, errorListener := none,
    emitterListeners := [], nextListenerId := 0, nextCallId := 0, log := [] }

/-- The constructor of AsyncEventIterator: store the effective options (the
default options object when the argument is omitted) and the event names,
and attach eagerly when listenNow is truthy. -/
def init (eventNames : List String) (options : Option AsyncEventIteratorOptions) :
    AsyncEventIterator α :=
  if (options.getD defaultOptions).listenNow then
    { addEventListeners (initBase eventNames (options.getD defaultOptions)) with
        listenersAdded := true }
  else initBase eventNames (options.getD defaultOptions)

/-- An external event at the boundary of one bridge instance: a consumer
call of next / return / throw, or the emitter firing a channel. -/
inductive Op (α : Type) where
  | next : Op α
  | ret : Op α
  | thr : α → Op α
  | fire : String → α → Op α
deriving DecidableEq

/-- Whether an operation is a consumer-side teardown call (return or
throw). -/
def isDrainOp : Op α → Bool
  | Op.ret => true
  | Op.thr _ => true
  | _ => false

/-- One external event applied to the state; consumer calls draw a fresh
call id. -/
def step (m : AsyncEventIterator α) : Op α → AsyncEventIterator α
  | Op.next => nextOp { m with nextCallId := m.nextCallId + 1 } m.nextCallId
  | Op.ret => returnOp { m with nextCallId := m.nextCallId + 1 } m.nextCallId
  | Op.thr e => throwOp { m with nextCallId := m.nextCallId + 1 } e m.nextCallId
  | Op.fire c p => fire m c p

/-- A whole history of external events applied in order. -/
def run (m : AsyncEventIterator α) (ops : List (Op α)) : AsyncEventIterator α :=
  ops.foldl step m

/-- The settlement that matching an entry against a pull produces, common to
pushEvent (waiter present) and pullEvent (entry buffered): rejection with
the data for the error channel, otherwise resolution with the entry and the
done flag. -/
def matchCompletion (opts : AsyncEventIteratorOptions) (ent : EventEntry α) : Completion α :=
  if opts.errorEventName = some ent.name then Completion.rejected ent.data
  else Completion.resolved (some ent) (decide (opts.doneEventName = some ent.name))

/-- An event at the rendezvous buffer itself: one pushEvent invocation (a
publish), or one pullEvent invocation through next while the bridge is
active and attached (a pull). -/
inductive ROp (α : Type) where
  | push : α → String → ROp α
  | pull : ROp α
deriving DecidableEq

/-- One rendezvous event applied to the state; a pull draws a fresh call id
exactly as next() does. -/
def rStep (m : AsyncEventIterator α) : ROp α → AsyncEventIterator α
  | ROp.push e n => pushEvent m e n
  | ROp.pull => pullEvent { m with nextCallId := m.nextCallId + 1 } m.nextCallId

/-- A history of rendezvous events applied in order. -/
def rRun (m : AsyncEventIterator α) (ops : List (ROp α)) : AsyncEventIterator α :=
  ops.foldl rStep m

/-- The entries published by a rendezvous history, in order. -/
def pushesOf : List (ROp α) → List (EventEntry α)
  | [] => []
  | ROp.push e n :: t => { name := n, data := some e } :: pushesOf t
  | ROp.pull :: t => pushesOf t

/-- The number of pulls issued by a rendezvous history. -/
def pullCount : List (ROp α) → Nat
  | [] => 0
  | ROp.pull :: t => pullCount t + 1
  | ROp.push _ _ :: t => pullCount t

/-- The options object with the default channel names and eager attachment,
used by several concrete scenarios below. -/
def eagerOptions : AsyncEventIteratorOptions :=
  { doneEventName := some "done", errorEventName := some "error", listenNow := true }

/-- The reachability invariant of one bridge instance: the two queues are
never both non-empty; once the bridge has stopped listening no pull is
deferred any more; and the tracked listener handles are clear whenever the
bridge is not listening or has never attached. -/
def BridgeInv (m : AsyncEventIterator α) : Prop :=
  (m.eventQueue = [] ∨ m.promiseQueue = []) ∧
  (m.listening = false → m.promiseQueue = []) ∧
  (m.listening = false → m.listeners = [] ∧ m.doneListener = none ∧ m.errorListener = none) ∧
  (m.listenersAdded = false → m.listeners = [] ∧ m.doneListener = none ∧ m.errorListener = none)

/-- A concrete already-drained bridge state, used to witness the statements
about post-drain behaviour. -/
def drainedState : AsyncEventIterator Nat :=
  { options := defaultOptions, eventNames := ["chunk"],
    promiseQueue := [], eventQueue := [],
    listening := false, listenersAdded := false,
    listeners := [], doneListener := none, errorListener := none,
    emitterListeners := [], nextListenerId := 0, nextCallId := 3, log := [] }

/-- The invariant of drain-free histories: the bridge is still listening and
every settlement so far is the settlement of a rendezvous match. -/
def NoDrainP (m : AsyncEventIterator α) : Prop :=
  m.listening = true ∧
  ∀ p ∈ m.log, ∃ ent : EventEntry α, p.2 = matchCompletion m.options ent

/-- The state of a freshly constructed bridge over one watched channel with
the default sentinels and eager attachment. -/
def eagerBase (c : String) : AsyncEventIterator α :=
  { options := eagerOptions, eventNames := [c],
    promiseQueue := [], eventQueue := [],
    listening := true, listenersAdded := true,
    listeners := [(c, 0)], doneListener := some 1, errorListener := some 2,
    emitterListeners := [(c, 0), ("done", 1), ("error", 2)],
    nextListenerId := 3, nextCallId := 0, log := [] }

/-- The state of a freshly constructed bridge over a duplicated watched
channel with the default sentinels and eager attachment: the emitter holds
one registration per occurrence, the listeners object only the last. -/
def eagerDup (c : String) : AsyncEventIterator α :=
  { options := eagerOptions, eventNames := [c, c],
    promiseQueue := [], eventQueue := [],
    listening := true, listenersAdded := true,
    listeners := [(c, 1)], doneListener := some 2, errorListener := some 3,
    emitterListeners := [(c, 0), (c, 1), ("done", 2), ("error", 3)],
    nextListenerId := 4, nextCallId := 0, log := [] }

/-- The fields of the state that listener registration and removal never
touch: the two queues, the log, the two state flags, the options and the
call counter. -/
def SameCore (m t : AsyncEventIterator α) : Prop :=
  t.promiseQueue = m.promiseQueue ∧ t.eventQueue = m.eventQueue ∧ t.log = m.log ∧
  t.listening = m.listening ∧ t.listenersAdded = m.listenersAdded ∧
  t.options = m.options ∧ t.nextCallId = m.nextCallId

/-- The invariant of a disabled sentinel: when a sentinel channel name is
not configured, its listener handle is never set. -/
def SentinelInv (m : AsyncEventIterator α) : Prop :=
  (m.options.doneEventName = none → m.doneListener = none) ∧
  (m.options.errorEventName = none → m.errorListener = none)

theorem sameCore_refl (m : AsyncEventIterator α) : SameCore m m := by
  simp [SameCore]

theorem sameCore_trans {a b c : AsyncEventIterator α}
    (h1 : SameCore a b) (h2 : SameCore b c) : SameCore a c := by
  obtain ⟨p1, q1, l1, s1, d1, o1, n1⟩ := h1
  obtain ⟨p2, q2, l2, s2, d2, o2, n2⟩ := h2
  exact ⟨p2.trans p1, q2.trans q1, l2.trans l1, s2.trans s1, d2.trans d1,
         o2.trans o1, n2.trans n1⟩

theorem sameCore_foldl {β : Type} (f : AsyncEventIterator α → β → AsyncEventIterator α)
    (hf : ∀ s b, SameCore s (f s b)) :
    ∀ (l : List β) (m : AsyncEventIterator α), SameCore m (l.foldl f m)
  | [], m => sameCore_refl m
  | b :: t, m => sameCore_trans (hf m b) (sameCore_foldl f hf t (f m b))

theorem sameCore_addOneListener (s : AsyncEventIterator α) (n : String) :
    SameCore s (addOneListener s n) := by
  simp [SameCore, addOneListener]

theorem sameCore_addNameListeners (m : AsyncEventIterator α) :
    SameCore m (addNameListeners m) :=
  sameCore_foldl addOneListener sameCore_addOneListener m.eventNames m

theorem sameCore_addDoneListener (m : AsyncEventIterator α) :
    SameCore m (addDoneListener m) := by
  rcases hd : m.options.doneEventName with _ | n
  · simp [addDoneListener, hd, SameCore]
  · by_cases hn : n = "" <;> simp [addDoneListener, hd, hn, SameCore]

theorem sameCore_addErrorListener (m : AsyncEventIterator α) :
    SameCore m (addErrorListener m) := by
  rcases hd : m.options.errorEventName with _ | n
  · simp [addErrorListener, hd, SameCore]
  · by_cases hn : n = "" <;> simp [addErrorListener, hd, hn, SameCore]

theorem sameCore_addEventListeners (m : AsyncEventIterator α) :
    SameCore m (addEventListeners m) :=
  sameCore_trans (sameCore_addNameListeners m)
    (sameCore_trans (sameCore_addDoneListener _) (sameCore_addErrorListener _))

theorem sameCore_removeOneListener (s : AsyncEventIterator α) (kv : String × Nat) :
    SameCore s (removeOneListener s kv) := by
  simp [SameCore, removeOneListener]

theorem sameCore_removeNameListeners (m : AsyncEventIterator α) :
    SameCore m (removeNameListeners m) := by
  have h := sameCore_foldl removeOneListener sameCore_removeOneListener m.listeners m
  obtain ⟨p1, q1, l1, s1, d1, o1, n1⟩ := h
  exact ⟨p1, q1, l1, s1, d1, o1, n1⟩

theorem sameCore_removeDoneListener (m : AsyncEventIterator α) :
    SameCore m (removeDoneListener m) := by
  rcases hd : m.doneListener with _ | i <;> simp [removeDoneListener, hd, SameCore]

theorem sameCore_removeErrorListener (m : AsyncEventIterator α) :
    SameCore m (removeErrorListener m) := by
  rcases hd : m.errorListener with _ | i <;> simp [removeErrorListener, hd, SameCore]

theorem sameCore_removeEventListeners (m : AsyncEventIterator α) :
    SameCore m (removeEventListeners m) :=
  sameCore_trans (sameCore_removeNameListeners m)
    (sameCore_trans (sameCore_removeDoneListener _) (sameCore_removeErrorListener _))

theorem removeFold_handles :
    ∀ (l : List (String × Nat)) (m : AsyncEventIterator α),
      (l.foldl removeOneListener m).listeners = m.listeners ∧
      (l.foldl removeOneListener m).doneListener = m.doneListener ∧
      (l.foldl removeOneListener m).errorListener = m.errorListener
  | [], m => ⟨rfl, rfl, rfl⟩
  | kv :: t, m => by
    have h := removeFold_handles t (removeOneListener m kv)
    simpa [removeOneListener] using h

/-- After removeEventListeners the tracked handles are cleared: the
listeners object is empty and the two sentinel listeners are gone. -/
theorem removeEventListeners_handles (m : AsyncEventIterator α) :
    (removeEventListeners m).listeners = [] ∧
    (removeEventListeners m).doneListener = none ∧
    (removeEventListeners m).errorListener = none := by
  have h1 : (removeNameListeners m).listeners = [] ∧
      (removeNameListeners m).doneListener = m.doneListener ∧
      (removeNameListeners m).errorListener = m.errorListener := by
    have h := removeFold_handles m.listeners m
    simp [removeNameListeners, h.2.1, h.2.2]
  have h2 : ∀ t : AsyncEventIterator α, (removeDoneListener t).listeners = t.listeners ∧
      (removeDoneListener t).doneListener = none ∨
      (removeDoneListener t).listeners = t.listeners ∧
      (removeDoneListener t).doneListener = t.doneListener := by
    intro t
    rcases hd : t.doneListener with _ | i <;> simp [removeDoneListener, hd]
  unfold removeEventListeners
  rcases hd : (removeDoneListener (removeNameListeners m)).errorListener with _ | i
  · have hdl : (removeDoneListener (removeNameListeners m)).doneListener = none := by
      rcases hx : (removeNameListeners m).doneListener with _ | j <;>
        simp [removeDoneListener, hx]
    have hls : (removeDoneListener (removeNameListeners m)).listeners = [] := by
      rcases hx : (removeNameListeners m).doneListener with _ | j <;>
        simp [removeDoneListener, hx, h1.1]
    simp [removeErrorListener, hd, hdl, hls]
  · have hdl : (removeDoneListener (removeNameListeners m)).doneListener = none := by
      rcases hx : (removeNameListeners m).doneListener with _ | j <;>
        simp [removeDoneListener, hx]
    have hls : (removeDoneListener (removeNameListeners m)).listeners = [] := by
      rcases hx : (removeNameListeners m).doneListener with _ | j <;>
        simp [removeDoneListener, hx, h1.1]
    simp [removeErrorListener, hd, hdl, hls]

theorem pushEvent_nil {m : AsyncEventIterator α} (hq : m.promiseQueue = [])
    (e : α) (n : String) :
    pushEvent m e n = { m with eventQueue := m.eventQueue ++ [EventEntry.mk n (some e)] } := by
  unfold pushEvent
  rw [hq]

theorem pushEvent_cons {m : AsyncEventIterator α} {p : Nat} {rest : List Nat}
    (hq : m.promiseQueue = p :: rest) (e : α) (n : String) :
    pushEvent m e n =
      { m with promiseQueue := rest,
               log := m.log ++ [(p, matchCompletion m.options (EventEntry.mk n (some e)))] } := by
  unfold pushEvent matchCompletion
  rw [hq]
  by_cases herr : m.options.errorEventName = some n <;> simp [herr]

theorem pullEvent_nil {m : AsyncEventIterator α} (hq : m.eventQueue = []) (cid : Nat) :
    pullEvent m cid = { m with promiseQueue := m.promiseQueue ++ [cid] } := by
  unfold pullEvent
  rw [hq]

theorem pullEvent_cons {m : AsyncEventIterator α} {entry : EventEntry α}
    {rest : List (EventEntry α)} (hq : m.eventQueue = entry :: rest) (cid : Nat) :
    pullEvent m cid =
      { m with eventQueue := rest,
               log := m.log ++ [(cid, matchCompletion m.options entry)] } := by
  unfold pullEvent matchCompletion
  rw [hq]
  by_cases herr : m.options.errorEventName = some entry.name <;> simp [herr]

theorem drain_not_listening {m : AsyncEventIterator α} (hl : m.listening = false) :
    drain m = m := by
  unfold drain
  rw [hl]
  simp

theorem drain_spec {m : AsyncEventIterator α} (h : BridgeInv m) :
    (drain m).listening = false ∧
    (drain m).promiseQueue = [] ∧
    (drain m).log = m.log ++ m.promiseQueue.map (fun p => (p, Completion.resolved none true)) ∧
    (drain m).options = m.options ∧
    (drain m).nextCallId = m.nextCallId ∧
    (drain m).listeners = [] ∧
    (drain m).doneListener = none ∧
    (drain m).errorListener = none ∧
    (m.listening = true → (drain m).eventQueue = []) := by
  obtain ⟨h1, h2, h3, h4⟩ := h
  rcases Bool.eq_false_or_eq_true m.listening with hl | hl
  · unfold drain
    rw [if_pos hl]
    rcases Bool.eq_false_or_eq_true m.listenersAdded with ha | ha
    · rw [if_pos ha]
      obtain ⟨hp, hq, hlog, hlis, hadd, hopt, hcall⟩ :=
        sameCore_removeEventListeners ({ m with listening := false } : AsyncEventIterator α)
      obtain ⟨hh1, hh2, hh3⟩ :=
        removeEventListeners_handles ({ m with listening := false } : AsyncEventIterator α)
      refine ⟨?_, rfl, ?_, ?_, ?_, hh1, hh2, hh3, fun hc => rfl⟩
      · simpa [drainFlush] using hlis
      · simp only [drainFlush]
        rw [hlog, hp]
      · simpa [drainFlush] using hopt
      · simpa [drainFlush] using hcall
    · rw [if_neg (by simp [ha])]
      exact ⟨rfl, rfl, rfl, rfl, rfl, (h4 ha).1, (h4 ha).2.1, (h4 ha).2.2, fun hc => rfl⟩
  · rw [drain_not_listening hl]
    refine ⟨hl, h2 hl, by rw [h2 hl]; simp, rfl, rfl, (h3 hl).1, (h3 hl).2.1, (h3 hl).2.2,
            fun hc => ?_⟩
    rw [hl] at hc
    exact Bool.noConfusion hc

theorem bridgeInv_drain {m : AsyncEventIterator α} (h : BridgeInv m) : BridgeInv (drain m) := by
  obtain ⟨hl, hp, hlog, hopt, hcall, hlis, hdl, hel, hev⟩ := drain_spec h
  exact ⟨Or.inr hp, fun _ => hp, fun _ => ⟨hlis, hdl, hel⟩, fun _ => ⟨hlis, hdl, hel⟩⟩

theorem bridgeInv_returnOp {m : AsyncEventIterator α} (h : BridgeInv m) (cid : Nat) :
    BridgeInv (returnOp m cid) := by
  obtain ⟨i1, i2, i3, i4⟩ := bridgeInv_drain h
  exact ⟨i1, i2, i3, i4⟩

theorem bridgeInv_throwOp {m : AsyncEventIterator α} (h : BridgeInv m) (e : α) (cid : Nat) :
    BridgeInv (throwOp m e cid) := by
  obtain ⟨i1, i2, i3, i4⟩ := bridgeInv_drain h
  exact ⟨i1, i2, i3, i4⟩

theorem bridgeInv_pushEvent {m : AsyncEventIterator α} (h : BridgeInv m) (e : α) (n : String) :
    BridgeInv (pushEvent m e n) := by
  obtain ⟨h1, h2, h3, h4⟩ := h
  rcases hq : m.promiseQueue with _ | ⟨p, rest⟩
  · rw [pushEvent_nil hq]
    exact ⟨Or.inr hq, fun hf => hq, fun hf => h3 hf, fun hf => h4 hf⟩
  · rw [pushEvent_cons hq]
    have he : m.eventQueue = [] := by
      rcases h1 with h1 | h1
      · exact h1
      · rw [h1] at hq; cases hq
    refine ⟨Or.inl he, fun hf => ?_, fun hf => h3 hf, fun hf => h4 hf⟩
    rw [h2 hf] at hq
    cases hq

theorem bridgeInv_pullEvent {m : AsyncEventIterator α} (h : BridgeInv m)
    (hl : m.listening = true) (cid : Nat) : BridgeInv (pullEvent m cid) := by
  obtain ⟨h1, h2, h3, h4⟩ := h
  rcases hq : m.eventQueue with _ | ⟨entry, rest⟩
  · rw [pullEvent_nil hq]
    refine ⟨Or.inl hq, fun hf => ?_, fun hf => ?_, fun hf => h4 hf⟩
    · rw [hl] at hf; exact Bool.noConfusion hf
    · rw [hl] at hf; exact Bool.noConfusion hf
  · rw [pullEvent_cons hq]
    have hp : m.promiseQueue = [] := by
      rcases h1 with h1 | h1
      · rw [h1] at hq; cases hq
      · exact h1
    exact ⟨Or.inr hp, fun hf => hp, fun hf => h3 hf, fun hf => h4 hf⟩

theorem bridgeInv_pushFold (payload : α) :
    ∀ (l : List (String × Nat)) (m : AsyncEventIterator α), BridgeInv m →
      BridgeInv (l.foldl (fun s h => pushEvent s payload h.1) m)
  | [], _, h => h
  | hd :: t, m, h => bridgeInv_pushFold payload t _ (bridgeInv_pushEvent h payload hd.1)

theorem bridgeInv_fire {m : AsyncEventIterator α} (h : BridgeInv m) (c : String) (p : α) :
    BridgeInv (fire m c p) := by
  unfold fire
  exact bridgeInv_pushFold p _ m h

theorem bridgeInv_addEventListeners {m : AsyncEventIterator α} (h : BridgeInv m)
    (hl : m.listening = true) :
    BridgeInv ({ addEventListeners m with listenersAdded := true }) := by
  obtain ⟨h1, h2, h3, h4⟩ := h
  obtain ⟨hp, hq, hlog, hlis, hadd, hopt, hcall⟩ := sameCore_addEventListeners m
  have e1 : ({ addEventListeners m with listenersAdded := true } :
      AsyncEventIterator α).eventQueue = m.eventQueue := hq
  have e2 : ({ addEventListeners m with listenersAdded := true } :
      AsyncEventIterator α).promiseQueue = m.promiseQueue := hp
  have e3 : ({ addEventListeners m with listenersAdded := true } :
      AsyncEventIterator α).listening = m.listening := hlis
  refine ⟨?_, fun hf => ?_, fun hf => ?_, fun hf => ?_⟩
  · rw [e1, e2]; exact h1
  · rw [e3, hl] at hf; exact Bool.noConfusion hf
  · rw [e3, hl] at hf; exact Bool.noConfusion hf
  · simp at hf

theorem bridgeInv_nextOp {m : AsyncEventIterator α} (h : BridgeInv m) (cid : Nat) :
    BridgeInv (nextOp m cid) := by
  unfold nextOp
  rcases Bool.eq_false_or_eq_true m.listening with hl | hl
  · rw [if_neg (by simp [hl])]
    rcases Bool.eq_false_or_eq_true m.listenersAdded with ha | ha
    · rw [if_neg (by simp [ha])]
      exact bridgeInv_pullEvent h hl cid
    · rw [if_pos ha]
      refine bridgeInv_pullEvent (bridgeInv_addEventListeners h hl) ?_ cid
      have hlis : (addEventListeners m).listening = m.listening :=
        (sameCore_addEventListeners m).2.2.2.1
      exact hlis.trans hl
  · rw [if_pos hl]
    exact bridgeInv_returnOp h cid

theorem bridgeInv_withCallId {m : AsyncEventIterator α} (h : BridgeInv m) (k : Nat) :
    BridgeInv ({ m with nextCallId := k }) := by
  obtain ⟨h1, h2, h3, h4⟩ := h
  exact ⟨h1, h2, h3, h4⟩

theorem bridgeInv_step {m : AsyncEventIterator α} (h : BridgeInv m) (op : Op α) :
    BridgeInv (step m op) := by
  cases op with
  | next => exact bridgeInv_nextOp (bridgeInv_withCallId h _) _
  | ret => exact bridgeInv_returnOp (bridgeInv_withCallId h _) _
  | thr e => exact bridgeInv_throwOp (bridgeInv_withCallId h _) e _
  | fire c p => exact bridgeInv_fire h c p

theorem bridgeInv_run {m : AsyncEventIterator α} (h : BridgeInv m) :
    ∀ ops : List (Op α), BridgeInv (run m ops)
  | [] => h
  | op :: t => bridgeInv_run (bridgeInv_step h op) t

theorem bridgeInv_initBase (en : List String) (opts : AsyncEventIteratorOptions) :
    BridgeInv (initBase en opts : AsyncEventIterator α) :=
  ⟨Or.inl rfl, fun _ => rfl, fun _ => ⟨rfl, rfl, rfl⟩, fun _ => ⟨rfl, rfl, rfl⟩⟩

theorem bridgeInv_init (en : List String) (options : Option AsyncEventIteratorOptions) :
    BridgeInv (init en options : AsyncEventIterator α) := by
  unfold init
  rcases Bool.eq_false_or_eq_true (options.getD defaultOptions).listenNow with hn | hn
  · rw [if_pos hn]
    exact bridgeInv_addEventListeners (bridgeInv_initBase en _) rfl
  · rw [if_neg (by simp [hn])]
    exact bridgeInv_initBase en _

theorem returnOp_spec {m : AsyncEventIterator α} (h : BridgeInv m) (cid : Nat) :
    (returnOp m cid).listening = false ∧
    (returnOp m cid).promiseQueue = [] ∧
    (returnOp m cid).log =
      m.log ++ m.promiseQueue.map (fun p => (p, Completion.resolved none true)) ++
        [(cid, Completion.resolved
                 (some (EventEntry.mk (jsOr m.options.doneEventName "done") none)) true)] ∧
    (returnOp m cid).listeners = [] ∧
    (returnOp m cid).doneListener = none ∧
    (returnOp m cid).errorListener = none ∧
    (m.listening = true → (returnOp m cid).eventQueue = []) := by
  obtain ⟨d1, d2, d3, d4, d5, d6, d7, d8, d9⟩ := drain_spec h
  unfold returnOp
  refine ⟨d1, d2, ?_, d6, d7, d8, fun hc => d9 hc⟩
  rw [d3, d4]

theorem throwOp_spec {m : AsyncEventIterator α} (h : BridgeInv m) (e : α) (cid : Nat) :
    (throwOp m e cid).listening = false ∧
    (throwOp m e cid).promiseQueue = [] ∧
    (throwOp m e cid).log =
      m.log ++ m.promiseQueue.map (fun p => (p, Completion.resolved none true)) ++
        [(cid, Completion.rejected (some e))] ∧
    (throwOp m e cid).listeners = [] ∧
    (throwOp m e cid).doneListener = none ∧
    (throwOp m e cid).errorListener = none ∧
    (m.listening = true → (throwOp m e cid).eventQueue = []) := by
  obtain ⟨d1, d2, d3, d4, d5, d6, d7, d8, d9⟩ := drain_spec h
  unfold throwOp
  refine ⟨d1, d2, ?_, d6, d7, d8, fun hc => d9 hc⟩
  rw [d3]

/-- Claim C1: at every observation point reachable by any sequence of
publishes (through firing a channel), pulls (next), and drains (return or
throw), the event queue and the promise queue of the bridge are never both
non-empty. -/
theorem c1_queues_never_both_nonempty (en : List String)
    (options : Option AsyncEventIteratorOptions) (ops : List (Op α)) :
    (run (init en options) ops).eventQueue = [] ∨
    (run (init en options) ops).promiseQueue = [] :=
  (bridgeInv_run (bridgeInv_init en options) ops).1

/-- Claim C5 counterexample: after a first stop(), a leaked duplicate
listener can still buffer an entry, and a second stop() call leaves the
bridge drained with that buffered entry NOT discarded, contradicting the
claim that stop() in any state discards all buffered event queue entries. -/
theorem c5_counterexample :
    (run (init ["c", "c"] (some eagerOptions)) [Op.ret, Op.fire "c" 5, Op.ret]
      : AsyncEventIterator Nat).listening = false ∧
    (run (init ["c", "c"] (some eagerOptions)) [Op.ret, Op.fire "c" 5, Op.ret]
      : AsyncEventIterator Nat).eventQueue = [EventEntry.mk "c" (some 5)] := by
  exact ⟨by decide, by decide⟩

/-- Claim C5 (amended): a stop() call (return()) on any reachable state
marks the bridge drained, leaves no pull pending, clears the tracked
listener handles, resolves every previously pending pull with a terminal
empty result and then resolves its own caller with a terminal done entry;
and when the bridge was still listening it also discards every buffered
event queue entry (after a previous drain, buffered entries that leaked in
through duplicate listeners are left in place). -/
theorem c5_stop_teardown (en : List String)
    (options : Option AsyncEventIteratorOptions) (ops : List (Op α)) :
    (step (run (init en options) ops) Op.ret).listening = false ∧
    (step (run (init en options) ops) Op.ret).promiseQueue = [] ∧
    (step (run (init en options) ops) Op.ret).listeners = [] ∧
    (step (run (init en options) ops) Op.ret).doneListener = none ∧
    (step (run (init en options) ops) Op.ret).errorListener = none ∧
    (step (run (init en options) ops) Op.ret).log =
      (run (init en options) ops).log ++
        (run (init en options) ops).promiseQueue.map
          (fun p => (p, Completion.resolved none true)) ++
        [((run (init en options) ops).nextCallId,
          Completion.resolved (some (EventEntry.mk
            (jsOr (run (init en options) ops).options.doneEventName "done") none)) true)] ∧
    ((run (init en options) ops).listening = true →
      (step (run (init en options) ops) Op.ret).eventQueue = []) := by
  have hinv := bridgeInv_run (bridgeInv_init en options) ops
  have spec := returnOp_spec (bridgeInv_withCallId hinv
    ((run (init en options) ops).nextCallId + 1)) (run (init en options) ops).nextCallId
  exact ⟨spec.1, spec.2.1, spec.2.2.2.1, spec.2.2.2.2.1, spec.2.2.2.2.2.1, spec.2.2.1,
         spec.2.2.2.2.2.2⟩

/-- Claim C5 witness: a concrete history with one pull pending, on which the
amended stop() description is realised. -/
theorem c5_stop_teardown_witness :
    (step (run (init ["chunk"] none) [Op.next]) Op.ret : AsyncEventIterator Nat).listening =
      false ∧
    (step (run (init ["chunk"] none) [Op.next]) Op.ret
      : AsyncEventIterator Nat).promiseQueue = [] ∧
    (step (run (init ["chunk"] none) [Op.next]) Op.ret : AsyncEventIterator Nat).listeners =
      [] ∧
    (step (run (init ["chunk"] none) [Op.next]) Op.ret
      : AsyncEventIterator Nat).doneListener = none ∧
    (step (run (init ["chunk"] none) [Op.next]) Op.ret
      : AsyncEventIterator Nat).errorListener = none ∧
    (step (run (init ["chunk"] none) [Op.next]) Op.ret : AsyncEventIterator Nat).log =
      (run (init ["chunk"] none) [Op.next] : AsyncEventIterator Nat).log ++
        (run (init ["chunk"] none) [Op.next]
          : AsyncEventIterator Nat).promiseQueue.map
            (fun p => (p, Completion.resolved none true)) ++
        [((run (init ["chunk"] none) [Op.next] : AsyncEventIterator Nat).nextCallId,
          Completion.resolved (some (EventEntry.mk
            (jsOr (run (init ["chunk"] none) [Op.next]
              : AsyncEventIterator Nat).options.doneEventName "done") none)) true)] ∧
    ((run (init ["chunk"] none) [Op.next] : AsyncEventIterator Nat).listening = true →
      (step (run (init ["chunk"] none) [Op.next]) Op.ret
        : AsyncEventIterator Nat).eventQueue = []) :=
  c5_stop_teardown ["chunk"] none [Op.next]

/-- Claim C6: a throw(err) call on any reachable state performs the same
teardown as return(): the bridge is drained, no pull stays pending, the
tracked handles are cleared, every previously pending pull is resolved with
a terminal empty result (never rejected with err), buffered entries are
discarded when the bridge was still listening, and only the callers own
promise is rejected, with exactly err. -/
theorem c6_throw_teardown (en : List String)
    (options : Option AsyncEventIteratorOptions) (ops : List (Op α)) (e : α) :
    (step (run (init en options) ops) (Op.thr e)).listening = false ∧
    (step (run (init en options) ops) (Op.thr e)).promiseQueue = [] ∧
    (step (run (init en options) ops) (Op.thr e)).listeners = [] ∧
    (step (run (init en options) ops) (Op.thr e)).doneListener = none ∧
    (step (run (init en options) ops) (Op.thr e)).errorListener = none ∧
    (step (run (init en options) ops) (Op.thr e)).log =
      (run (init en options) ops).log ++
        (run (init en options) ops).promiseQueue.map
          (fun p => (p, Completion.resolved none true)) ++
        [((run (init en options) ops).nextCallId, Completion.rejected (some e))] ∧
    ((run (init en options) ops).listening = true →
      (step (run (init en options) ops) (Op.thr e)).eventQueue = []) := by
  have hinv := bridgeInv_run (bridgeInv_init en options) ops
  have spec := throwOp_spec (bridgeInv_withCallId hinv
    ((run (init en options) ops).nextCallId + 1)) e (run (init en options) ops).nextCallId
  exact ⟨spec.1, spec.2.1, spec.2.2.2.1, spec.2.2.2.2.1, spec.2.2.2.2.2.1, spec.2.2.1,
         spec.2.2.2.2.2.2⟩

/-- Claim C6 witness: a concrete history with one pull pending, on which the
throw(err) description is realised with err being the payload 7. -/
theorem c6_throw_teardown_witness :
    (step (run (init ["chunk"] none) [Op.next]) (Op.thr 7)
      : AsyncEventIterator Nat).listening = false ∧
    (step (run (init ["chunk"] none) [Op.next]) (Op.thr 7)
      : AsyncEventIterator Nat).promiseQueue = [] ∧
    (step (run (init ["chunk"] none) [Op.next]) (Op.thr 7)
      : AsyncEventIterator Nat).listeners = [] ∧
    (step (run (init ["chunk"] none) [Op.next]) (Op.thr 7)
      : AsyncEventIterator Nat).doneListener = none ∧
    (step (run (init ["chunk"] none) [Op.next]) (Op.thr 7)
      : AsyncEventIterator Nat).errorListener = none ∧
    (step (run (init ["chunk"] none) [Op.next]) (Op.thr 7)
      : AsyncEventIterator Nat).log =
      (run (init ["chunk"] none) [Op.next] : AsyncEventIterator Nat).log ++
        (run (init ["chunk"] none) [Op.next]
          : AsyncEventIterator Nat).promiseQueue.map
            (fun p => (p, Completion.resolved none true)) ++
        [((run (init ["chunk"] none) [Op.next] : AsyncEventIterator Nat).nextCallId,
          Completion.rejected (some 7))] ∧
    ((run (init ["chunk"] none) [Op.next] : AsyncEventIterator Nat).listening = true →
      (step (run (init ["chunk"] none) [Op.next]) (Op.thr 7)
        : AsyncEventIterator Nat).eventQueue = []) :=
  c6_throw_teardown ["chunk"] none [Op.next] 7

/-- Claim C7: on a drained bridge, return(), next() and throw() are harmless
no-ops apart from settling their own caller: the whole state is unchanged
except for the fresh call id and the new log entry, so the queues are
untouched, no listener is detached again, the emitter registrations are
untouched and addEventListeners never runs again; next() returns a terminal
result immediately and return() returns a terminal result. -/
theorem c7_drained_idempotent (m : AsyncEventIterator α) (e : α)
    (h : m.listening = false) :
    step m Op.ret =
      { m with nextCallId := m.nextCallId + 1,
               log := m.log ++ [(m.nextCallId,
                 Completion.resolved
                   (some (EventEntry.mk (jsOr m.options.doneEventName "done") none)) true)] } ∧
    step m Op.next =
      { m with nextCallId := m.nextCallId + 1,
               log := m.log ++ [(m.nextCallId,
                 Completion.resolved
                   (some (EventEntry.mk (jsOr m.options.doneEventName "done") none)) true)] } ∧
    step m (Op.thr e) =
      { m with nextCallId := m.nextCallId + 1,
               log := m.log ++ [(m.nextCallId, Completion.rejected (some e))] } := by
  have h2 : ({ m with nextCallId := m.nextCallId + 1 } : AsyncEventIterator α).listening =
      false := h
  refine ⟨?_, ?_, ?_⟩
  · show returnOp { m with nextCallId := m.nextCallId + 1 } m.nextCallId = _
    unfold returnOp
    rw [drain_not_listening h2]
  · show nextOp { m with nextCallId := m.nextCallId + 1 } m.nextCallId = _
    unfold nextOp
    rw [if_pos h2]
    unfold returnOp
    rw [drain_not_listening h2]
  · show throwOp { m with nextCallId := m.nextCallId + 1 } e m.nextCallId = _
    unfold throwOp
    rw [drain_not_listening h2]

/-- Claim C7 witness: the drained-state no-op description realised on a
concrete drained state. -/
theorem c7_drained_idempotent_witness :
    drainedState.listening = false ∧
    (step drainedState Op.ret =
      { drainedState with
          nextCallId := drainedState.nextCallId + 1,
          log := drainedState.log ++ [(drainedState.nextCallId,
            Completion.resolved
              (some (EventEntry.mk (jsOr drainedState.options.doneEventName "done") none))
              true)] } ∧
    step drainedState Op.next =
      { drainedState with
          nextCallId := drainedState.nextCallId + 1,
          log := drainedState.log ++ [(drainedState.nextCallId,
            Completion.resolved
              (some (EventEntry.mk (jsOr drainedState.options.doneEventName "done") none))
              true)] } ∧
    step drainedState (Op.thr 0) =
      { drainedState with
          nextCallId := drainedState.nextCallId + 1,
          log := drainedState.log ++ [(drainedState.nextCallId,
            Completion.rejected (some 0))] }) :=
  ⟨rfl, c7_drained_idempotent drainedState 0 rfl⟩

theorem noDrainP_pushEvent {m : AsyncEventIterator α} (h : NoDrainP m) (e : α) (n : String) :
    NoDrainP (pushEvent m e n) := by
  obtain ⟨h1, h2⟩ := h
  rcases hq : m.promiseQueue with _ | ⟨p, rest⟩
  · rw [pushEvent_nil hq]
    exact ⟨h1, h2⟩
  · rw [pushEvent_cons hq]
    refine ⟨h1, fun q hq2 => ?_⟩
    rcases List.mem_append.mp hq2 with hin | hin
    · exact h2 q hin
    · rcases List.mem_singleton.mp hin with rfl
      exact ⟨EventEntry.mk n (some e), rfl⟩

theorem noDrainP_pullEvent {m : AsyncEventIterator α} (h : NoDrainP m) (cid : Nat) :
    NoDrainP (pullEvent m cid) := by
  obtain ⟨h1, h2⟩ := h
  rcases hq : m.eventQueue with _ | ⟨entry, rest⟩
  · rw [pullEvent_nil hq]
    exact ⟨h1, h2⟩
  · rw [pullEvent_cons hq]
    refine ⟨h1, fun q hq2 => ?_⟩
    rcases List.mem_append.mp hq2 with hin | hin
    · exact h2 q hin
    · rcases List.mem_singleton.mp hin with rfl
      exact ⟨entry, rfl⟩

theorem noDrainP_pushFold (payload : α) :
    ∀ (l : List (String × Nat)) (m : AsyncEventIterator α), NoDrainP m →
      NoDrainP (l.foldl (fun s h => pushEvent s payload h.1) m)
  | [], _, h => h
  | hd :: t, m, h => noDrainP_pushFold payload t _ (noDrainP_pushEvent h payload hd.1)

theorem noDrainP_fire {m : AsyncEventIterator α} (h : NoDrainP m) (c : String) (p : α) :
    NoDrainP (fire m c p) := by
  unfold fire
  exact noDrainP_pushFold p _ m h

theorem noDrainP_addEventListeners {m : AsyncEventIterator α} (h : NoDrainP m) :
    NoDrainP ({ addEventListeners m with listenersAdded := true }) := by
  obtain ⟨h1, h2⟩ := h
  obtain ⟨hp, hq, hlog, hlis, hadd, hopt, hcall⟩ := sameCore_addEventListeners m
  have e1 : ({ addEventListeners m with listenersAdded := true } :
      AsyncEventIterator α).listening = m.listening := hlis
  have e2 : ({ addEventListeners m with listenersAdded := true } :
      AsyncEventIterator α).log = m.log := hlog
  have e3 : ({ addEventListeners m with listenersAdded := true } :
      AsyncEventIterator α).options = m.options := hopt
  refine ⟨e1.trans h1, fun q hq2 => ?_⟩
  rw [e2] at hq2
  rw [e3]
  exact h2 q hq2

theorem noDrainP_withCallId {m : AsyncEventIterator α} (h : NoDrainP m) (k : Nat) :
    NoDrainP ({ m with nextCallId := k }) := by
  obtain ⟨h1, h2⟩ := h
  exact ⟨h1, h2⟩

theorem noDrainP_nextOp {m : AsyncEventIterator α} (h : NoDrainP m) (cid : Nat) :
    NoDrainP (nextOp m cid) := by
  unfold nextOp
  rw [if_neg (by simp [h.1])]
  rcases Bool.eq_false_or_eq_true m.listenersAdded with ha | ha
  · rw [if_neg (by simp [ha])]
    exact noDrainP_pullEvent h cid
  · rw [if_pos ha]
    exact noDrainP_pullEvent (noDrainP_addEventListeners h) cid

theorem noDrainP_step {m : AsyncEventIterator α} (h : NoDrainP m) (op : Op α)
    (hop : isDrainOp op = false) : NoDrainP (step m op) := by
  cases op with
  | next => exact noDrainP_nextOp (noDrainP_withCallId h _) _
  | ret => exact Bool.noConfusion hop
  | thr e => exact Bool.noConfusion hop
  | fire c p => exact noDrainP_fire h c p

theorem noDrainP_run {m : AsyncEventIterator α} (h : NoDrainP m) :
    ∀ ops : List (Op α), (∀ op ∈ ops, isDrainOp op = false) → NoDrainP (run m ops)
  | [], _ => h
  | op :: t, hops =>
    noDrainP_run (noDrainP_step h op (hops op (List.mem_cons_self op t)))
      t (fun o ho => hops o (List.mem_cons_of_mem op ho))

theorem noDrainP_init (en : List String) (options : Option AsyncEventIteratorOptions) :
    NoDrainP (init en options : AsyncEventIterator α) := by
  unfold init
  rcases Bool.eq_false_or_eq_true (options.getD defaultOptions).listenNow with hn | hn
  · rw [if_pos hn]
    exact noDrainP_addEventListeners ⟨rfl, fun q hq => absurd hq (List.not_mem_nil q)⟩
  · rw [if_neg (by simp [hn])]
    exact ⟨rfl, fun q hq => absurd hq (List.not_mem_nil q)⟩

theorem pushEvent_options (m : AsyncEventIterator α) (e : α) (n : String) :
    (pushEvent m e n).options = m.options := by
  rcases hq : m.promiseQueue with _ | ⟨p, rest⟩
  · rw [pushEvent_nil hq]
  · rw [pushEvent_cons hq]

theorem pullEvent_options (m : AsyncEventIterator α) (cid : Nat) :
    (pullEvent m cid).options = m.options := by
  rcases hq : m.eventQueue with _ | ⟨entry, rest⟩
  · rw [pullEvent_nil hq]
  · rw [pullEvent_cons hq]

theorem drain_options (m : AsyncEventIterator α) : (drain m).options = m.options := by
  rcases Bool.eq_false_or_eq_true m.listening with hl | hl
  · unfold drain
    rw [if_pos hl]
    rcases Bool.eq_false_or_eq_true m.listenersAdded with ha | ha
    · rw [if_pos ha]
      exact (sameCore_removeEventListeners
        ({ m with listening := false } : AsyncEventIterator α)).2.2.2.2.2.1
    · rw [if_neg (by simp [ha])]
      rfl
  · rw [drain_not_listening hl]

theorem nextOp_options (m : AsyncEventIterator α) (cid : Nat) :
    (nextOp m cid).options = m.options := by
  unfold nextOp
  rcases Bool.eq_false_or_eq_true m.listening with hl | hl
  · rw [if_neg (by simp [hl])]
    rcases Bool.eq_false_or_eq_true m.listenersAdded with ha | ha
    · rw [if_neg (by simp [ha])]
      exact pullEvent_options m cid
    · rw [if_pos ha]
      exact (pullEvent_options _ cid).trans (sameCore_addEventListeners m).2.2.2.2.2.1
  · rw [if_pos hl]
    show (returnOp m cid).options = m.options
    exact drain_options m

theorem step_options (m : AsyncEventIterator α) (op : Op α) :
    (step m op).options = m.options := by
  cases op with
  | next => exact nextOp_options _ _
  | ret => exact drain_options _
  | thr e => exact drain_options _
  | fire c p =>
    show (fire m c p).options = m.options
    unfold fire
    generalize m.emitterListeners.filter (fun h => decide (h.1 = c)) = l
    induction l generalizing m with
    | nil => rfl
    | cons hd t ih => exact (ih (pushEvent m p hd.1)).trans (pushEvent_options m p hd.1)

theorem run_options (m : AsyncEventIterator α) :
    ∀ ops : List (Op α), (run m ops).options = m.options
  | [] => rfl
  | op :: t => (run_options (step m op) t).trans (step_options m op)

theorem init_options (en : List String) (options : Option AsyncEventIteratorOptions) :
    (init en options : AsyncEventIterator α).options = options.getD defaultOptions := by
  unfold init
  rcases Bool.eq_false_or_eq_true (options.getD defaultOptions).listenNow with hn | hn
  · rw [if_pos hn]
    exact (sameCore_addEventListeners (initBase en (options.getD defaultOptions))).2.2.2.2.2.1
  · rw [if_neg (by simp [hn])]
    rfl

/-- Claim C3 counterexample: delivering the done entry does NOT drain the
bridge; after a pull has reported terminal, a further pull is still served
normally (here it resolves non-terminal with a later chunk entry), the
bridge is still listening and all listeners are still attached, contradicting
the claimed immediate Active to Drained transition. -/
theorem c3_counterexample :
    (run (init ["chunk"] (some eagerOptions))
      [Op.fire "done" 9, Op.next, Op.next, Op.fire "chunk" 5] : AsyncEventIterator Nat).log =
      [(0, Completion.resolved (some (EventEntry.mk "done" (some 9))) true),
       (1, Completion.resolved (some (EventEntry.mk "chunk" (some 5))) false)] ∧
    (run (init ["chunk"] (some eagerOptions))
      [Op.fire "done" 9, Op.next, Op.next, Op.fire "chunk" 5]
      : AsyncEventIterator Nat).listening = true ∧
    (run (init ["chunk"] (some eagerOptions))
      [Op.fire "done" 9, Op.next, Op.next, Op.fire "chunk" 5]
      : AsyncEventIterator Nat).emitterListeners =
      [("chunk", 0), ("done", 1), ("error", 2)] := by
  exact ⟨by decide, by decide, by decide⟩

/-- Claim C3 (amended): in every drain-free history a pull result carries
terminal equal to true exactly when the matched entry channel is the
configured done channel; but delivering a done entry does not trigger any
transition: the bridge stays listening and later pulls are served as in the
active state. -/
theorem c3_done_flag (en : List String) (options : Option AsyncEventIteratorOptions)
    (ops : List (Op α)) (h : ∀ op ∈ ops, isDrainOp op = false) :
    (run (init en options) ops).listening = true ∧
    ∀ (i : Nat) (e : EventEntry α) (d : Bool),
      (i, Completion.resolved (some e) d) ∈ (run (init en options) ops).log →
      (d = true ↔ (run (init en options) ops).options.doneEventName = some e.name) := by
  obtain ⟨h1, h2⟩ := noDrainP_run (noDrainP_init en options) ops h
  refine ⟨h1, fun i e d hmem => ?_⟩
  obtain ⟨ent, hent⟩ := h2 (i, Completion.resolved (some e) d) hmem
  unfold matchCompletion at hent
  by_cases herr : (run (init en options) ops).options.errorEventName = some ent.name
  · rw [if_pos herr] at hent
    exact absurd hent (by simp)
  · rw [if_neg herr] at hent
    simp only [Completion.resolved.injEq, Option.some.injEq] at hent
    obtain ⟨rfl, hd⟩ := hent
    subst hd
    simp [decide_eq_true_eq]

/-- Claim C3 witness: the amended statement realised on a history that fires
the done channel and then pulls. -/
theorem c3_done_flag_witness :
    (∀ op ∈ ([Op.fire "done" 9, Op.next] : List (Op Nat)), isDrainOp op = false) ∧
    ((run (init ["chunk"] (some eagerOptions)) [Op.fire "done" 9, Op.next]
        : AsyncEventIterator Nat).listening = true ∧
     ∀ (i : Nat) (e : EventEntry Nat) (d : Bool),
       (i, Completion.resolved (some e) d) ∈
         (run (init ["chunk"] (some eagerOptions)) [Op.fire "done" 9, Op.next]
           : AsyncEventIterator Nat).log →
       (d = true ↔
         (run (init ["chunk"] (some eagerOptions)) [Op.fire "done" 9, Op.next]
           : AsyncEventIterator Nat).options.doneEventName = some e.name)) :=
  ⟨by decide, c3_done_flag ["chunk"] (some eagerOptions) [Op.fire "done" 9, Op.next]
    (by decide)⟩

/-- Claim C8 counterexample: the done default does not apply whenever the
option is merely unspecified: with an options object supplied but without
doneEventName, a waiting pull is NOT terminated by firing the channel named
done; nothing settles at all, contradicting the claimed defaulting. -/
theorem c8_counterexample :
    (run (init ["chunk"] (some (AsyncEventIteratorOptions.mk none none true)))
      [Op.next, Op.fire "done" 0] : AsyncEventIterator Nat).log = [] ∧
    (run (init ["chunk"] (some (AsyncEventIteratorOptions.mk none none true)))
      [Op.next, Op.fire "done" 0] : AsyncEventIterator Nat).promiseQueue = [0] := by
  exact ⟨by decide, by decide⟩

theorem addFold_handles :
    ∀ (l : List String) (m : AsyncEventIterator α),
      (l.foldl addOneListener m).doneListener = m.doneListener ∧
      (l.foldl addOneListener m).errorListener = m.errorListener
  | [], _ => ⟨rfl, rfl⟩
  | n :: t, m => by
    have h := addFold_handles t (addOneListener m n)
    simpa [addOneListener] using h

theorem sentinelInv_addNameListeners {m : AsyncEventIterator α} (h : SentinelInv m) :
    SentinelInv (addNameListeners m) := by
  obtain ⟨h1, h2⟩ := h
  obtain ⟨hd, he⟩ := addFold_handles m.eventNames m
  have hopt : (addNameListeners m).options = m.options :=
    (sameCore_addNameListeners m).2.2.2.2.2.1
  constructor
  · intro hf
    rw [hopt] at hf
    show (m.eventNames.foldl addOneListener m).doneListener = none
    rw [hd]
    exact h1 hf
  · intro hf
    rw [hopt] at hf
    show (m.eventNames.foldl addOneListener m).errorListener = none
    rw [he]
    exact h2 hf

theorem sentinelInv_addDoneListener {m : AsyncEventIterator α} (h : SentinelInv m) :
    SentinelInv (addDoneListener m) := by
  obtain ⟨h1, h2⟩ := h
  rcases hd : m.options.doneEventName with _ | n
  · simp only [addDoneListener, hd]
    exact ⟨h1, h2⟩
  · by_cases hn : n = ""
    · simp only [addDoneListener, hd, if_pos hn]
      exact ⟨h1, h2⟩
    · simp only [addDoneListener, hd, if_neg hn]
      refine ⟨fun hf => ?_, fun hf => ?_⟩
      · have hf2 : m.options.doneEventName = none := hf
        rw [hd] at hf2
        exact Option.noConfusion hf2
      · have hf2 : m.options.errorEventName = none := hf
        exact h2 hf2

theorem sentinelInv_addErrorListener {m : AsyncEventIterator α} (h : SentinelInv m) :
    SentinelInv (addErrorListener m) := by
  obtain ⟨h1, h2⟩ := h
  rcases hd : m.options.errorEventName with _ | n
  · simp only [addErrorListener, hd]
    exact ⟨h1, h2⟩
  · by_cases hn : n = ""
    · simp only [addErrorListener, hd, if_pos hn]
      exact ⟨h1, h2⟩
    · simp only [addErrorListener, hd, if_neg hn]
      refine ⟨fun hf => ?_, fun hf => ?_⟩
      · have hf2 : m.options.doneEventName = none := hf
        exact h1 hf2
      · have hf2 : m.options.errorEventName = none := hf
        rw [hd] at hf2
        exact Option.noConfusion hf2

theorem sentinelInv_addEventListeners {m : AsyncEventIterator α} (h : SentinelInv m) :
    SentinelInv ({ addEventListeners m with listenersAdded := true }) := by
  obtain ⟨g1, g2⟩ :=
    sentinelInv_addErrorListener (sentinelInv_addDoneListener (sentinelInv_addNameListeners h))
  exact ⟨fun hf => g1 hf, fun hf => g2 hf⟩

theorem sentinelInv_removeEventListeners (m : AsyncEventIterator α) :
    SentinelInv (removeEventListeners m) := by
  obtain ⟨hh1, hh2, hh3⟩ := removeEventListeners_handles m
  exact ⟨fun _ => hh2, fun _ => hh3⟩

theorem sentinelInv_drain {m : AsyncEventIterator α} (h : SentinelInv m) :
    SentinelInv (drain m) := by
  rcases Bool.eq_false_or_eq_true m.listening with hl | hl
  · unfold drain
    rw [if_pos hl]
    rcases Bool.eq_false_or_eq_true m.listenersAdded with ha | ha
    · rw [if_pos ha]
      obtain ⟨g1, g2⟩ :=
        sentinelInv_removeEventListeners ({ m with listening := false } : AsyncEventIterator α)
      exact ⟨fun hf => g1 hf, fun hf => g2 hf⟩
    · rw [if_neg (by simp [ha])]
      obtain ⟨h1, h2⟩ := h
      exact ⟨fun hf => h1 hf, fun hf => h2 hf⟩
  · rw [drain_not_listening hl]
    exact h

theorem sentinelInv_returnOp {m : AsyncEventIterator α} (h : SentinelInv m) (cid : Nat) :
    SentinelInv (returnOp m cid) := by
  obtain ⟨g1, g2⟩ := sentinelInv_drain h
  exact ⟨fun hf => g1 hf, fun hf => g2 hf⟩

theorem sentinelInv_throwOp {m : AsyncEventIterator α} (h : SentinelInv m) (e : α)
    (cid : Nat) : SentinelInv (throwOp m e cid) := by
  obtain ⟨g1, g2⟩ := sentinelInv_drain h
  exact ⟨fun hf => g1 hf, fun hf => g2 hf⟩

theorem sentinelInv_pushEvent {m : AsyncEventIterator α} (h : SentinelInv m) (e : α)
    (n : String) : SentinelInv (pushEvent m e n) := by
  obtain ⟨h1, h2⟩ := h
  rcases hq : m.promiseQueue with _ | ⟨p, rest⟩
  · rw [pushEvent_nil hq]
    exact ⟨fun hf => h1 hf, fun hf => h2 hf⟩
  · rw [pushEvent_cons hq]
    exact ⟨fun hf => h1 hf, fun hf => h2 hf⟩

theorem sentinelInv_pullEvent {m : AsyncEventIterator α} (h : SentinelInv m) (cid : Nat) :
    SentinelInv (pullEvent m cid) := by
  obtain ⟨h1, h2⟩ := h
  rcases hq : m.eventQueue with _ | ⟨entry, rest⟩
  · rw [pullEvent_nil hq]
    exact ⟨fun hf => h1 hf, fun hf => h2 hf⟩
  · rw [pullEvent_cons hq]
    exact ⟨fun hf => h1 hf, fun hf => h2 hf⟩

theorem sentinelInv_pushFold (payload : α) :
    ∀ (l : List (String × Nat)) (m : AsyncEventIterator α), SentinelInv m →
      SentinelInv (l.foldl (fun s h => pushEvent s payload h.1) m)
  | [], _, h => h
  | hd :: t, m, h => sentinelInv_pushFold payload t _ (sentinelInv_pushEvent h payload hd.1)

theorem sentinelInv_fire {m : AsyncEventIterator α} (h : SentinelInv m) (c : String)
    (p : α) : SentinelInv (fire m c p) := by
  unfold fire
  exact sentinelInv_pushFold p _ m h

theorem sentinelInv_nextOp {m : AsyncEventIterator α} (h : SentinelInv m) (cid : Nat) :
    SentinelInv (nextOp m cid) := by
  unfold nextOp
  rcases Bool.eq_false_or_eq_true m.listening with hl | hl
  · rw [if_neg (by simp [hl])]
    rcases Bool.eq_false_or_eq_true m.listenersAdded with ha | ha
    · rw [if_neg (by simp [ha])]
      exact sentinelInv_pullEvent h cid
    · rw [if_pos ha]
      exact sentinelInv_pullEvent (sentinelInv_addEventListeners h) cid
  · rw [if_pos hl]
    exact sentinelInv_returnOp h cid

theorem sentinelInv_withCallId {m : AsyncEventIterator α} (h : SentinelInv m) (k : Nat) :
    SentinelInv ({ m with nextCallId := k }) := by
  obtain ⟨h1, h2⟩ := h
  exact ⟨fun hf => h1 hf, fun hf => h2 hf⟩

theorem sentinelInv_step {m : AsyncEventIterator α} (h : SentinelInv m) (op : Op α) :
    SentinelInv (step m op) := by
  cases op with
  | next => exact sentinelInv_nextOp (sentinelInv_withCallId h _) _
  | ret => exact sentinelInv_returnOp (sentinelInv_withCallId h _) _
  | thr e => exact sentinelInv_throwOp (sentinelInv_withCallId h _) e _
  | fire c p => exact sentinelInv_fire h c p

theorem sentinelInv_run {m : AsyncEventIterator α} (h : SentinelInv m) :
    ∀ ops : List (Op α), SentinelInv (run m ops)
  | [] => h
  | op :: t => sentinelInv_run (sentinelInv_step h op) t

theorem sentinelInv_init (en : List String) (options : Option AsyncEventIteratorOptions) :
    SentinelInv (init en options : AsyncEventIterator α) := by
  unfold init
  rcases Bool.eq_false_or_eq_true (options.getD defaultOptions).listenNow with hn | hn
  · rw [if_pos hn]
    exact sentinelInv_addEventListeners ⟨fun _ => rfl, fun _ => rfl⟩
  · rw [if_neg (by simp [hn])]
    exact ⟨fun _ => rfl, fun _ => rfl⟩


/-- Claim C8 (amended): the defaults done and error apply only when the
whole options argument is omitted; when an options object is supplied, an
unspecified sentinel channel is disabled individually: its sentinel
listener is never attached, and in every drain-free history a disabled
done channel produces no terminal settlement while a disabled error
channel produces no failed settlement, so firing the disabled name neither
terminates the sequence nor fails a pull. -/
theorem c8_sentinel_defaults (en : List String) (o : AsyncEventIteratorOptions)
    (ops : List (Op α)) (h : ∀ op ∈ ops, isDrainOp op = false) :
    (init en (none : Option AsyncEventIteratorOptions) : AsyncEventIterator α).options =
      defaultOptions ∧
    (run (init en (some o)) ops : AsyncEventIterator α).listening = true ∧
    (o.doneEventName = none →
      (run (init en (some o)) ops : AsyncEventIterator α).doneListener = none ∧
      ∀ p ∈ (run (init en (some o)) ops : AsyncEventIterator α).log,
        ∀ (v : Option (EventEntry α)) (d : Bool),
          p.2 = Completion.resolved v d → d = false) ∧
    (o.errorEventName = none →
      (run (init en (some o)) ops : AsyncEventIterator α).errorListener = none ∧
      ∀ p ∈ (run (init en (some o)) ops : AsyncEventIterator α).log,
        ∀ v : Option α, p.2 ≠ Completion.rejected v) := by
  have ho : (run (init en (some o)) ops : AsyncEventIterator α).options = o :=
    (run_options _ ops).trans (init_options en (some o))
  obtain ⟨hlis, hmatch⟩ := noDrainP_run (noDrainP_init en (some o)) ops h
  obtain ⟨hsd, hse⟩ := sentinelInv_run (sentinelInv_init en (some o)) ops
  refine ⟨(init_options en (none : Option AsyncEventIteratorOptions)).trans rfl, hlis,
          fun hdo => ⟨hsd (by rw [ho]; exact hdo), fun p hp v d hres => ?_⟩,
          fun heo => ⟨hse (by rw [ho]; exact heo), fun p hp v hrej => ?_⟩⟩
  · obtain ⟨ent, hent⟩ := hmatch p hp
    rw [hres] at hent
    unfold matchCompletion at hent
    rw [ho] at hent
    by_cases herr : o.errorEventName = some ent.name
    · rw [if_pos herr] at hent
      exact absurd hent (by simp)
    · rw [if_neg herr] at hent
      rw [hdo] at hent
      simp only [Completion.resolved.injEq] at hent
      obtain ⟨hv, hd2⟩ := hent
      rw [hd2]
      simp
  · obtain ⟨ent, hent⟩ := hmatch p hp
    rw [hrej] at hent
    unfold matchCompletion at hent
    rw [ho, heo] at hent
    rw [if_neg (by simp)] at hent
    exact absurd hent (by simp)

/-- Claim C8 witness: the amended statement realised with the done sentinel
disabled and the error sentinel kept, firing a chunk into a pull. -/
theorem c8_sentinel_defaults_witness :
    (∀ op ∈ ([Op.fire "chunk" 1, Op.next] : List (Op Nat)), isDrainOp op = false) ∧
    ((init ["chunk"] (none : Option AsyncEventIteratorOptions)
        : AsyncEventIterator Nat).options = defaultOptions ∧
     (run (init ["chunk"] (some (AsyncEventIteratorOptions.mk none (some "error") true)))
        [Op.fire "chunk" 1, Op.next] : AsyncEventIterator Nat).listening = true ∧
     ((AsyncEventIteratorOptions.mk none (some "error") true).doneEventName = none →
       (run (init ["chunk"] (some (AsyncEventIteratorOptions.mk none (some "error") true)))
          [Op.fire "chunk" 1, Op.next] : AsyncEventIterator Nat).doneListener = none ∧
       ∀ p ∈ (run (init ["chunk"]
            (some (AsyncEventIteratorOptions.mk none (some "error") true)))
          [Op.fire "chunk" 1, Op.next] : AsyncEventIterator Nat).log,
         ∀ (v : Option (EventEntry Nat)) (d : Bool),
           p.2 = Completion.resolved v d → d = false) ∧
     ((AsyncEventIteratorOptions.mk none (some "error") true).errorEventName = none →
       (run (init ["chunk"] (some (AsyncEventIteratorOptions.mk none (some "error") true)))
          [Op.fire "chunk" 1, Op.next] : AsyncEventIterator Nat).errorListener = none ∧
       ∀ p ∈ (run (init ["chunk"]
            (some (AsyncEventIteratorOptions.mk none (some "error") true)))
          [Op.fire "chunk" 1, Op.next] : AsyncEventIterator Nat).log,
         ∀ v : Option Nat, p.2 ≠ Completion.rejected v)) :=
  ⟨by decide,
   c8_sentinel_defaults ["chunk"] (AsyncEventIteratorOptions.mk none (some "error") true)
     [Op.fire "chunk" 1, Op.next] (by decide)⟩
theorem zip_right_grow {β γ : Type} :
    ∀ (l : List β) (r t : List γ), l.length ≤ r.length → l.zip (r ++ t) = l.zip r
  | [], _, _, _ => by simp
  | a :: l, [], t, h => by simp at h
  | a :: l, b :: r, t, h => by
    simp only [List.cons_append, List.zip_cons_cons]
    rw [zip_right_grow l r t (by simpa using h)]

theorem zip_left_grow {β γ : Type} :
    ∀ (l t : List β) (r : List γ), r.length ≤ l.length → (l ++ t).zip r = l.zip r
  | _, _, [], _ => by simp
  | [], t, b :: r, h => by simp at h
  | a :: l, t, b :: r, h => by
    simp only [List.cons_append, List.zip_cons_cons]
    rw [zip_left_grow l t r (by simpa using h)]

theorem zip_right_concat {β γ : Type} :
    ∀ (l : List β) (r : List γ) (b : γ) (h : r.length < l.length),
      l.zip (r ++ [b]) = l.zip r ++ [(l.get ⟨r.length, h⟩, b)]
  | [], r, b, h => by simp at h
  | a :: l, [], b, h => by simp
  | a :: l, c :: r, b, h => by
    simp only [List.cons_append, List.zip_cons_cons]
    rw [zip_right_concat l r b (by simpa using h)]
    simp

theorem zip_left_concat {β γ : Type} :
    ∀ (l : List β) (a : β) (r : List γ) (h : l.length < r.length),
      (l ++ [a]).zip r = l.zip r ++ [(a, r.get ⟨l.length, h⟩)]
  | l, a, [], h => by simp at h
  | [], a, c :: r, h => by simp
  | b :: l, a, c :: r, h => by
    simp only [List.cons_append, List.zip_cons_cons]
    rw [zip_left_concat l a r (by simpa using h)]
    simp

theorem pushesOf_append :
    ∀ l1 l2 : List (ROp α), pushesOf (l1 ++ l2) = pushesOf l1 ++ pushesOf l2
  | [], _ => rfl
  | ROp.push e n :: t, l2 => by
    show EventEntry.mk n (some e) :: pushesOf (t ++ l2) =
      EventEntry.mk n (some e) :: pushesOf t ++ pushesOf l2
    rw [pushesOf_append t l2]
    rfl
  | ROp.pull :: t, l2 => by
    show pushesOf (t ++ l2) = pushesOf t ++ pushesOf l2
    exact pushesOf_append t l2

theorem pullCount_append :
    ∀ l1 l2 : List (ROp α), pullCount (l1 ++ l2) = pullCount l1 + pullCount l2
  | [], l2 => by simp [pullCount]
  | ROp.push e n :: t, l2 => by
    show pullCount (t ++ l2) = pullCount t + pullCount l2
    exact pullCount_append t l2
  | ROp.pull :: t, l2 => by
    show pullCount (t ++ l2) + 1 = pullCount t + 1 + pullCount l2
    rw [pullCount_append t l2]
    omega

/-- Claim C2: matching is FIFO in global arrival order on both sides. For
every drain-free interleaving of publishes (pushEvent) and pulls (pullEvent
through next) starting from empty queues, the settlements are exactly the
position-wise pairing of the pull call ids, in issue order, with the
published entries, in firing order: the Nth unmatched publish settles the
Nth unmatched pull regardless of channel names; leftover entries stay
buffered in firing order and leftover pulls stay pending in issue order. -/
theorem c2_fifo_global_order (m : AsyncEventIterator α) (ops : List (ROp α))
    (he : m.eventQueue = []) (hp : m.promiseQueue = []) :
    (rRun m ops).log =
      m.log ++ ((List.range' m.nextCallId (pullCount ops)).zip (pushesOf ops)).map
        (fun pr => (pr.1, matchCompletion m.options pr.2)) ∧
    (rRun m ops).eventQueue = (pushesOf ops).drop (pullCount ops) ∧
    (rRun m ops).promiseQueue =
      (List.range' m.nextCallId (pullCount ops)).drop (pushesOf ops).length ∧
    (rRun m ops).nextCallId = m.nextCallId + pullCount ops ∧
    (rRun m ops).options = m.options := by
  induction ops using List.reverseRecOn with
  | nil =>
    refine ⟨by simp [rRun, pullCount], ?_, ?_, by simp [rRun, pullCount], rfl⟩
    · simpa [rRun, pushesOf, pullCount] using he
    · simpa [rRun, pushesOf, pullCount] using hp
  | append_singleton l op ih =>
    obtain ⟨ihlog, ihev, ihpq, ihcall, ihopt⟩ := ih
    have hstep : rRun m (l ++ [op]) = rStep (rRun m l) op := by
      simp [rRun, List.foldl_append]
    rw [hstep]
    cases op with
    | push e n =>
      have hpc : pullCount (l ++ [ROp.push e n]) = pullCount l := by
        rw [pullCount_append]
        rfl
      have hpo : pushesOf (l ++ [ROp.push e n]) =
          pushesOf l ++ [EventEntry.mk n (some e)] := by
        rw [pushesOf_append]
        rfl
      rw [hpc, hpo]
      show (pushEvent (rRun m l) e n).log = _ ∧ (pushEvent (rRun m l) e n).eventQueue = _ ∧
        (pushEvent (rRun m l) e n).promiseQueue = _ ∧
        (pushEvent (rRun m l) e n).nextCallId = _ ∧ (pushEvent (rRun m l) e n).options = _
      rcases Nat.lt_or_ge (pushesOf l).length (pullCount l) with hlt | hge
      · have hlen : (pushesOf l).length <
            (List.range' m.nextCallId (pullCount l)).length := by
          rw [List.length_range']
          exact hlt
        have hqcons : (rRun m l).promiseQueue =
            (List.range' m.nextCallId (pullCount l)).get ⟨(pushesOf l).length, hlen⟩ ::
            (List.range' m.nextCallId (pullCount l)).drop ((pushesOf l).length + 1) := by
          rw [ihpq, List.drop_eq_getElem_cons hlen]
          simp
        rw [pushEvent_cons hqcons]
        refine ⟨?_, ?_, ?_, ihcall, ihopt⟩
        · show (rRun m l).log ++ _ = _
          rw [ihlog, ihopt,
              zip_right_concat (List.range' m.nextCallId (pullCount l)) (pushesOf l)
                (EventEntry.mk n (some e)) hlen,
              List.map_append, List.append_assoc]
          rfl
        · show (rRun m l).eventQueue = _
          rw [ihev, List.drop_append_eq_append_drop,
              @List.drop_eq_nil_of_le _ [EventEntry.mk n (some e)]
                (pullCount l - (pushesOf l).length) (by simp; omega),
              List.append_nil]
        · show (List.range' m.nextCallId (pullCount l)).drop ((pushesOf l).length + 1) = _
          simp
      · have hpq_nil : (rRun m l).promiseQueue = [] := by
          rw [ihpq]
          exact List.drop_eq_nil_of_le (by rw [List.length_range']; exact hge)
        rw [pushEvent_nil hpq_nil]
        refine ⟨?_, ?_, ?_, ihcall, ihopt⟩
        · show (rRun m l).log = _
          rw [ihlog,
              zip_right_grow (List.range' m.nextCallId (pullCount l)) (pushesOf l)
                [EventEntry.mk n (some e)] (by rw [List.length_range']; exact hge)]
        · show (rRun m l).eventQueue ++ _ = _
          rw [ihev, List.drop_append_eq_append_drop,
              Nat.sub_eq_zero_of_le hge, List.drop_zero]
        · show (rRun m l).promiseQueue = _
          rw [hpq_nil]
          refine (List.drop_eq_nil_of_le ?_).symm
          rw [List.length_range']
          simp
          omega
    | pull =>
      have hpc : pullCount (l ++ [ROp.pull]) = pullCount l + 1 := by
        rw [pullCount_append]
        simp [pullCount]
      have hpo : pushesOf (l ++ [ROp.pull]) = pushesOf l := by
        rw [pushesOf_append]
        simp [pushesOf]
      rw [hpc, hpo]
      have hr : List.range' m.nextCallId (pullCount l + 1) =
          List.range' m.nextCallId (pullCount l) ++ [m.nextCallId + pullCount l] := by
        simpa using @List.range'_concat 1 m.nextCallId (pullCount l)
      rw [hr]
      show (pullEvent { rRun m l with nextCallId := (rRun m l).nextCallId + 1 }
          (rRun m l).nextCallId).log = _ ∧
        (pullEvent { rRun m l with nextCallId := (rRun m l).nextCallId + 1 }
          (rRun m l).nextCallId).eventQueue = _ ∧
        (pullEvent { rRun m l with nextCallId := (rRun m l).nextCallId + 1 }
          (rRun m l).nextCallId).promiseQueue = _ ∧
        (pullEvent { rRun m l with nextCallId := (rRun m l).nextCallId + 1 }
          (rRun m l).nextCallId).nextCallId = _ ∧
        (pullEvent { rRun m l with nextCallId := (rRun m l).nextCallId + 1 }
          (rRun m l).nextCallId).options = _
      rcases Nat.lt_or_ge (pullCount l) (pushesOf l).length with hlt | hge
      · have hecons : ({ rRun m l with nextCallId := (rRun m l).nextCallId + 1 } :
            AsyncEventIterator α).eventQueue =
            (pushesOf l).get ⟨pullCount l, hlt⟩ ::
            (pushesOf l).drop (pullCount l + 1) := by
          show (rRun m l).eventQueue = _
          rw [ihev, List.drop_eq_getElem_cons hlt]
          simp
        rw [pullEvent_cons hecons]
        refine ⟨?_, ?_, ?_, ?_, ihopt⟩
        · show (rRun m l).log ++ _ = _
          have hlen2 : (List.range' m.nextCallId (pullCount l)).length <
              (pushesOf l).length := by
            rw [List.length_range']
            exact hlt
          rw [ihlog, ihopt, ihcall,
              zip_left_concat (List.range' m.nextCallId (pullCount l))
                (m.nextCallId + pullCount l) (pushesOf l) hlen2,
              List.map_append, List.append_assoc]
          simp [List.length_range']
        · show (pushesOf l).drop (pullCount l + 1) = _
          rfl
        · show (rRun m l).promiseQueue = _
          rw [ihpq, List.drop_eq_nil_of_le (by rw [List.length_range']; omega)]
          refine (List.drop_eq_nil_of_le ?_).symm
          simp [List.length_append, List.length_range']
          omega
        · show (rRun m l).nextCallId + 1 = _
          rw [ihcall]
          omega
      · have he_nil : ({ rRun m l with nextCallId := (rRun m l).nextCallId + 1 } :
            AsyncEventIterator α).eventQueue = [] := by
          show (rRun m l).eventQueue = []
          rw [ihev]
          exact List.drop_eq_nil_of_le hge
        rw [pullEvent_nil he_nil]
        refine ⟨?_, ?_, ?_, ?_, ihopt⟩
        · show (rRun m l).log = _
          rw [ihlog,
              zip_left_grow (List.range' m.nextCallId (pullCount l))
                [m.nextCallId + pullCount l] (pushesOf l)
                (by rw [List.length_range']; exact hge)]
        · show ({ rRun m l with nextCallId := (rRun m l).nextCallId + 1 } :
              AsyncEventIterator α).eventQueue = _
          rw [he_nil]
          refine (List.drop_eq_nil_of_le ?_).symm
          omega
        · show (rRun m l).promiseQueue ++ _ = _
          rw [ihpq, ihcall, List.drop_append_eq_append_drop,
              List.length_range', Nat.sub_eq_zero_of_le hge, List.drop_zero]
        · show (rRun m l).nextCallId + 1 = _
          rw [ihcall]
          omega

/-- Claim C2 witness: the FIFO pairing realised on the concrete history
push a, pull, pull, push b starting from a freshly constructed bridge. -/
theorem c2_fifo_global_order_witness :
    (init ["a"] none : AsyncEventIterator Nat).eventQueue = [] ∧
    (init ["a"] none : AsyncEventIterator Nat).promiseQueue = [] ∧
    ((rRun (init ["a"] none) [ROp.push 1 "a", ROp.pull, ROp.pull, ROp.push 2 "b"]
        : AsyncEventIterator Nat).log =
      (init ["a"] none : AsyncEventIterator Nat).log ++
        ((List.range' (init ["a"] none : AsyncEventIterator Nat).nextCallId
            (pullCount [ROp.push 1 "a", ROp.pull, ROp.pull, ROp.push 2 "b"])).zip
          (pushesOf [ROp.push 1 "a", ROp.pull, ROp.pull, ROp.push 2 "b"])).map
          (fun pr => (pr.1,
            matchCompletion (init ["a"] none : AsyncEventIterator Nat).options pr.2)) ∧
     (rRun (init ["a"] none) [ROp.push 1 "a", ROp.pull, ROp.pull, ROp.push 2 "b"]
        : AsyncEventIterator Nat).eventQueue =
      (pushesOf [ROp.push 1 "a", ROp.pull, ROp.pull, ROp.push 2 "b"]).drop
        (pullCount [ROp.push 1 "a", ROp.pull, ROp.pull, ROp.push 2 "b"]) ∧
     (rRun (init ["a"] none) [ROp.push 1 "a", ROp.pull, ROp.pull, ROp.push 2 "b"]
        : AsyncEventIterator Nat).promiseQueue =
      (List.range' (init ["a"] none : AsyncEventIterator Nat).nextCallId
        (pullCount [ROp.push 1 "a", ROp.pull, ROp.pull, ROp.push 2 "b"])).drop
        (pushesOf [ROp.push 1 "a", ROp.pull, ROp.pull, ROp.push 2 "b"]).length ∧
     (rRun (init ["a"] none) [ROp.push 1 "a", ROp.pull, ROp.pull, ROp.push 2 "b"]
        : AsyncEventIterator Nat).nextCallId =
      (init ["a"] none : AsyncEventIterator Nat).nextCallId +
        pullCount [ROp.push 1 "a", ROp.pull, ROp.pull, ROp.push 2 "b"] ∧
     (rRun (init ["a"] none) [ROp.push 1 "a", ROp.pull, ROp.pull, ROp.push 2 "b"]
        : AsyncEventIterator Nat).options =
      (init ["a"] none : AsyncEventIterator Nat).options) :=
  ⟨by decide, by decide,
   c2_fifo_global_order (init ["a"] none)
     [ROp.push 1 "a", ROp.pull, ROp.pull, ROp.push 2 "b"] (by decide) (by decide)⟩

theorem init_one_eager (c : String) :
    (init [c] (some eagerOptions) : AsyncEventIterator α) = eagerBase c := by
  unfold init initBase addEventListeners addNameListeners addDoneListener addErrorListener
    addOneListener objInsert defaultOptions eagerBase
  simp [eagerOptions]

theorem init_dup_eager (c : String) :
    (init [c, c] (some eagerOptions) : AsyncEventIterator α) = eagerDup c := by
  unfold init initBase addEventListeners addNameListeners addDoneListener addErrorListener
    addOneListener objInsert defaultOptions eagerDup
  simp [eagerOptions]

theorem fire_watched {m : AsyncEventIterator α} (c : String) (p : α)
    (hem : m.emitterListeners = [(c, 0), ("done", 1), ("error", 2)])
    (h1 : c ≠ "done") (h2 : c ≠ "error") :
    fire m c p = pushEvent m p c := by
  unfold fire
  rw [hem]
  have hf : List.filter (fun h => decide (h.1 = c))
      [(c, 0), ("done", 1), ("error", 2)] = [(c, 0)] := by
    simp [List.filter, Ne.symm h1, Ne.symm h2]
  rw [hf]
  rfl

theorem fire_error_sentinel {m : AsyncEventIterator α} (c : String) (p : α)
    (hem : m.emitterListeners = [(c, 0), ("done", 1), ("error", 2)])
    (h2 : c ≠ "error") :
    fire m "error" p = pushEvent m p "error" := by
  unfold fire
  rw [hem]
  have hf : List.filter (fun h => decide (h.1 = "error"))
      [(c, 0), ("done", 1), ("error", 2)] = [("error", 2)] := by
    simp [List.filter, h2]
  rw [hf]
  rfl

theorem fire_dup_watched {m : AsyncEventIterator α} (c : String) (p : α)
    (hem : m.emitterListeners = [(c, 0), (c, 1), ("done", 2), ("error", 3)])
    (h1 : c ≠ "done") (h2 : c ≠ "error") :
    fire m c p = pushEvent (pushEvent m p c) p c := by
  unfold fire
  rw [hem]
  have hf : List.filter (fun h => decide (h.1 = c))
      [(c, 0), (c, 1), ("done", 2), ("error", 3)] = [(c, 0), (c, 1)] := by
    simp [List.filter, Ne.symm h1, Ne.symm h2]
  rw [hf]
  rfl

theorem matchCompletion_eager_plain (c : String) (a : α)
    (h1 : c ≠ "done") (h2 : c ≠ "error") :
    matchCompletion eagerOptions (EventEntry.mk c (some a)) =
      Completion.resolved (some (EventEntry.mk c (some a))) false := by
  unfold matchCompletion eagerOptions
  rw [if_neg (by simp [Ne.symm h2])]
  simp [Ne.symm h1]

theorem matchCompletion_eager_error (e : α) :
    matchCompletion eagerOptions (EventEntry.mk "error" (some e)) =
      Completion.rejected (some e) := by
  unfold matchCompletion eagerOptions
  rw [if_pos rfl]

theorem step_next_active {m : AsyncEventIterator α} (hl : m.listening = true)
    (ha : m.listenersAdded = true) :
    step m Op.next = pullEvent { m with nextCallId := m.nextCallId + 1 } m.nextCallId := by
  show nextOp { m with nextCallId := m.nextCallId + 1 } m.nextCallId = _
  unfold nextOp
  rw [if_neg (by simp [hl]), if_neg (by simp [ha])]

/-- Claim C4: firing an entry on a watched channel, then firing the error
channel, then issuing two pulls: the first pull succeeds with the entry
(non-terminal) and the second pull fails with exactly the error payload, in
queue order. -/
theorem c4_error_in_queue_position (c : String) (a e : α)
    (h1 : c ≠ "done") (h2 : c ≠ "error") :
    (run (init [c] (some eagerOptions))
        [Op.fire c a, Op.fire "error" e, Op.next, Op.next] : AsyncEventIterator α).log =
      [(0, Completion.resolved (some (EventEntry.mk c (some a))) false),
       (1, Completion.rejected (some e))] ∧
    (run (init [c] (some eagerOptions))
        [Op.fire c a, Op.fire "error" e, Op.next, Op.next]
      : AsyncEventIterator α).promiseQueue = [] ∧
    (run (init [c] (some eagerOptions))
        [Op.fire c a, Op.fire "error" e, Op.next, Op.next]
      : AsyncEventIterator α).eventQueue = [] := by
  have s0 : (init [c] (some eagerOptions) : AsyncEventIterator α) = eagerBase c :=
    init_one_eager c
  have s1 : step (eagerBase c : AsyncEventIterator α) (Op.fire c a) =
      ({ (eagerBase c : AsyncEventIterator α) with eventQueue := [EventEntry.mk c (some a)] }
        : AsyncEventIterator α) := by
    show fire (eagerBase c) c a = _
    rw [fire_watched c a rfl h1 h2, pushEvent_nil rfl]
    rfl
  have s2 : step ({ (eagerBase c : AsyncEventIterator α) with eventQueue := [EventEntry.mk c (some a)] }
      : AsyncEventIterator α) (Op.fire "error" e) =
      ({ (eagerBase c : AsyncEventIterator α) with
          eventQueue := [EventEntry.mk c (some a), EventEntry.mk "error" (some e)] }
        : AsyncEventIterator α) := by
    show fire _ "error" e = _
    rw [fire_error_sentinel c e rfl h2, pushEvent_nil rfl]
    rfl
  have s3 : step ({ (eagerBase c : AsyncEventIterator α) with
        eventQueue := [EventEntry.mk c (some a), EventEntry.mk "error" (some e)] }
      : AsyncEventIterator α) Op.next =
      ({ (eagerBase c : AsyncEventIterator α) with
          eventQueue := [EventEntry.mk "error" (some e)], nextCallId := 1,
          log := [(0, Completion.resolved (some (EventEntry.mk c (some a))) false)] }
        : AsyncEventIterator α) := by
    rw [step_next_active rfl rfl, pullEvent_cons rfl]
    simp [eagerBase, matchCompletion_eager_plain c a h1 h2]
  have s4 : step ({ (eagerBase c : AsyncEventIterator α) with
        eventQueue := [EventEntry.mk "error" (some e)], nextCallId := 1,
        log := [(0, Completion.resolved (some (EventEntry.mk c (some a))) false)] }
      : AsyncEventIterator α) Op.next =
      ({ (eagerBase c : AsyncEventIterator α) with
          nextCallId := 2,
          log := [(0, Completion.resolved (some (EventEntry.mk c (some a))) false),
                  (1, Completion.rejected (some e))] } : AsyncEventIterator α) := by
    rw [step_next_active rfl rfl, pullEvent_cons rfl]
    simp [eagerBase, matchCompletion_eager_error e]
  have hrun : run (init [c] (some eagerOptions))
      [Op.fire c a, Op.fire "error" e, Op.next, Op.next] =
      ({ (eagerBase c : AsyncEventIterator α) with
          nextCallId := 2,
          log := [(0, Completion.resolved (some (EventEntry.mk c (some a))) false),
                  (1, Completion.rejected (some e))] } : AsyncEventIterator α) := by
    simp only [run, List.foldl]
    rw [s0, s1, s2, s3, s4]
  rw [hrun]
  exact ⟨rfl, rfl, rfl⟩

/-- Claim C10: an upstream error does not drain the bridge. In both the
buffered case (fires first, pulls later) and the waiting case (pulls first,
fires later), a pull failing with the error payload leaves the bridge
listening with its listeners attached, and the entry fired after the error
is still delivered, in order, to the following pull. -/
theorem c10_error_keeps_listening (c : String) (a e b : α)
    (h1 : c ≠ "done") (h2 : c ≠ "error") :
    ((run (init [c] (some eagerOptions))
        [Op.fire c a, Op.fire "error" e, Op.fire c b, Op.next, Op.next, Op.next]
      : AsyncEventIterator α).log =
      [(0, Completion.resolved (some (EventEntry.mk c (some a))) false),
       (1, Completion.rejected (some e)),
       (2, Completion.resolved (some (EventEntry.mk c (some b))) false)] ∧
     (run (init [c] (some eagerOptions))
        [Op.fire c a, Op.fire "error" e, Op.fire c b, Op.next, Op.next, Op.next]
      : AsyncEventIterator α).listening = true ∧
     (run (init [c] (some eagerOptions))
        [Op.fire c a, Op.fire "error" e, Op.fire c b, Op.next, Op.next, Op.next]
      : AsyncEventIterator α).emitterListeners = [(c, 0), ("done", 1), ("error", 2)]) ∧
    ((run (init [c] (some eagerOptions))
        [Op.next, Op.next, Op.fire c a, Op.fire "error" e, Op.fire c b, Op.next]
      : AsyncEventIterator α).log =
      [(0, Completion.resolved (some (EventEntry.mk c (some a))) false),
       (1, Completion.rejected (some e)),
       (2, Completion.resolved (some (EventEntry.mk c (some b))) false)] ∧
     (run (init [c] (some eagerOptions))
        [Op.next, Op.next, Op.fire c a, Op.fire "error" e, Op.fire c b, Op.next]
      : AsyncEventIterator α).listening = true ∧
     (run (init [c] (some eagerOptions))
        [Op.next, Op.next, Op.fire c a, Op.fire "error" e, Op.fire c b, Op.next]
      : AsyncEventIterator α).emitterListeners = [(c, 0), ("done", 1), ("error", 2)]) := by
  have s0 : (init [c] (some eagerOptions) : AsyncEventIterator α) = eagerBase c :=
    init_one_eager c
  have t1 : step (eagerBase c : AsyncEventIterator α) (Op.fire c a) =
      ({ (eagerBase c : AsyncEventIterator α) with
          eventQueue := [EventEntry.mk c (some a)] } : AsyncEventIterator α) := by
    show fire (eagerBase c) c a = _
    rw [fire_watched c a rfl h1 h2, pushEvent_nil rfl]
    rfl
  have t2 : step ({ (eagerBase c : AsyncEventIterator α) with
        eventQueue := [EventEntry.mk c (some a)] } : AsyncEventIterator α)
      (Op.fire "error" e) =
      ({ (eagerBase c : AsyncEventIterator α) with
          eventQueue := [EventEntry.mk c (some a), EventEntry.mk "error" (some e)] }
        : AsyncEventIterator α) := by
    show fire _ "error" e = _
    rw [fire_error_sentinel c e rfl h2, pushEvent_nil rfl]
    rfl
  have t3 : step ({ (eagerBase c : AsyncEventIterator α) with
        eventQueue := [EventEntry.mk c (some a), EventEntry.mk "error" (some e)] }
      : AsyncEventIterator α) (Op.fire c b) =
      ({ (eagerBase c : AsyncEventIterator α) with
          eventQueue := [EventEntry.mk c (some a), EventEntry.mk "error" (some e),
            EventEntry.mk c (some b)] } : AsyncEventIterator α) := by
    show fire _ c b = _
    rw [fire_watched c b rfl h1 h2, pushEvent_nil rfl]
    rfl
  have t4 : step ({ (eagerBase c : AsyncEventIterator α) with
        eventQueue := [EventEntry.mk c (some a), EventEntry.mk "error" (some e),
          EventEntry.mk c (some b)] } : AsyncEventIterator α) Op.next =
      ({ (eagerBase c : AsyncEventIterator α) with
          eventQueue := [EventEntry.mk "error" (some e), EventEntry.mk c (some b)],
          nextCallId := 1,
          log := [(0, Completion.resolved (some (EventEntry.mk c (some a))) false)] }
        : AsyncEventIterator α) := by
    rw [step_next_active rfl rfl, pullEvent_cons rfl]
    simp [eagerBase, matchCompletion_eager_plain c a h1 h2]
  have t5 : step ({ (eagerBase c : AsyncEventIterator α) with
        eventQueue := [EventEntry.mk "error" (some e), EventEntry.mk c (some b)],
        nextCallId := 1,
        log := [(0, Completion.resolved (some (EventEntry.mk c (some a))) false)] }
      : AsyncEventIterator α) Op.next =
      ({ (eagerBase c : AsyncEventIterator α) with
          eventQueue := [EventEntry.mk c (some b)], nextCallId := 2,
          log := [(0, Completion.resolved (some (EventEntry.mk c (some a))) false),
                  (1, Completion.rejected (some e))] } : AsyncEventIterator α) := by
    rw [step_next_active rfl rfl, pullEvent_cons rfl]
    simp [eagerBase, matchCompletion_eager_error e]
  have t6 : step ({ (eagerBase c : AsyncEventIterator α) with
        eventQueue := [EventEntry.mk c (some b)], nextCallId := 2,
        log := [(0, Completion.resolved (some (EventEntry.mk c (some a))) false),
                (1, Completion.rejected (some e))] } : AsyncEventIterator α) Op.next =
      ({ (eagerBase c : AsyncEventIterator α) with
          nextCallId := 3,
          log := [(0, Completion.resolved (some (EventEntry.mk c (some a))) false),
                  (1, Completion.rejected (some e)),
                  (2, Completion.resolved (some (EventEntry.mk c (some b))) false)] }
        : AsyncEventIterator α) := by
    rw [step_next_active rfl rfl, pullEvent_cons rfl]
    simp [eagerBase, matchCompletion_eager_plain c b h1 h2]
  have u1 : step (eagerBase c : AsyncEventIterator α) Op.next =
      ({ (eagerBase c : AsyncEventIterator α) with
          promiseQueue := [0], nextCallId := 1 } : AsyncEventIterator α) := by
    rw [step_next_active rfl rfl, pullEvent_nil rfl]
    rfl
  have u2 : step ({ (eagerBase c : AsyncEventIterator α) with
        promiseQueue := [0], nextCallId := 1 } : AsyncEventIterator α) Op.next =
      ({ (eagerBase c : AsyncEventIterator α) with
          promiseQueue := [0, 1], nextCallId := 2 } : AsyncEventIterator α) := by
    rw [step_next_active rfl rfl, pullEvent_nil rfl]
    rfl
  have u3 : step ({ (eagerBase c : AsyncEventIterator α) with
        promiseQueue := [0, 1], nextCallId := 2 } : AsyncEventIterator α) (Op.fire c a) =
      ({ (eagerBase c : AsyncEventIterator α) with
          promiseQueue := [1], nextCallId := 2,
          log := [(0, Completion.resolved (some (EventEntry.mk c (some a))) false)] }
        : AsyncEventIterator α) := by
    show fire _ c a = _
    rw [fire_watched c a rfl h1 h2, pushEvent_cons rfl]
    simp [eagerBase, matchCompletion_eager_plain c a h1 h2]
  have u4 : step ({ (eagerBase c : AsyncEventIterator α) with
        promiseQueue := [1], nextCallId := 2,
        log := [(0, Completion.resolved (some (EventEntry.mk c (some a))) false)] }
      : AsyncEventIterator α) (Op.fire "error" e) =
      ({ (eagerBase c : AsyncEventIterator α) with
          nextCallId := 2,
          log := [(0, Completion.resolved (some (EventEntry.mk c (some a))) false),
                  (1, Completion.rejected (some e))] } : AsyncEventIterator α) := by
    show fire _ "error" e = _
    rw [fire_error_sentinel c e rfl h2, pushEvent_cons rfl]
    simp [eagerBase, matchCompletion_eager_error e]
  have u5 : step ({ (eagerBase c : AsyncEventIterator α) with
        nextCallId := 2,
        log := [(0, Completion.resolved (some (EventEntry.mk c (some a))) false),
                (1, Completion.rejected (some e))] } : AsyncEventIterator α)
      (Op.fire c b) =
      ({ (eagerBase c : AsyncEventIterator α) with
          eventQueue := [EventEntry.mk c (some b)], nextCallId := 2,
          log := [(0, Completion.resolved (some (EventEntry.mk c (some a))) false),
                  (1, Completion.rejected (some e))] } : AsyncEventIterator α) := by
    show fire _ c b = _
    rw [fire_watched c b rfl h1 h2, pushEvent_nil rfl]
    rfl
  have u6 : step ({ (eagerBase c : AsyncEventIterator α) with
        eventQueue := [EventEntry.mk c (some b)], nextCallId := 2,
        log := [(0, Completion.resolved (some (EventEntry.mk c (some a))) false),
                (1, Completion.rejected (some e))] } : AsyncEventIterator α) Op.next =
      ({ (eagerBase c : AsyncEventIterator α) with
          nextCallId := 3,
          log := [(0, Completion.resolved (some (EventEntry.mk c (some a))) false),
                  (1, Completion.rejected (some e)),
                  (2, Completion.resolved (some (EventEntry.mk c (some b))) false)] }
        : AsyncEventIterator α) := by
    rw [step_next_active rfl rfl, pullEvent_cons rfl]
    simp [eagerBase, matchCompletion_eager_plain c b h1 h2]
  have hrunA : run (init [c] (some eagerOptions))
      [Op.fire c a, Op.fire "error" e, Op.fire c b, Op.next, Op.next, Op.next] =
      ({ (eagerBase c : AsyncEventIterator α) with
          nextCallId := 3,
          log := [(0, Completion.resolved (some (EventEntry.mk c (some a))) false),
                  (1, Completion.rejected (some e)),
                  (2, Completion.resolved (some (EventEntry.mk c (some b))) false)] }
        : AsyncEventIterator α) := by
    simp only [run, List.foldl]
    rw [s0, t1, t2, t3, t4, t5, t6]
  have hrunB : run (init [c] (some eagerOptions))
      [Op.next, Op.next, Op.fire c a, Op.fire "error" e, Op.fire c b, Op.next] =
      ({ (eagerBase c : AsyncEventIterator α) with
          nextCallId := 3,
          log := [(0, Completion.resolved (some (EventEntry.mk c (some a))) false),
                  (1, Completion.rejected (some e)),
                  (2, Completion.resolved (some (EventEntry.mk c (some b))) false)] }
        : AsyncEventIterator α) := by
    simp only [run, List.foldl]
    rw [s0, u1, u2, u3, u4, u5, u6]
  rw [hrunA, hrunB]
  exact ⟨⟨rfl, rfl, rfl⟩, ⟨rfl, rfl, rfl⟩⟩

/-- Claim C10 witness: the two scenarios realised on channel chunk with
payloads 1, 2 and 3. -/
theorem c10_error_keeps_listening_witness :
    ("chunk" : String) ≠ "done" ∧ ("chunk" : String) ≠ "error" ∧
    (((run (init ["chunk"] (some eagerOptions))
        [Op.fire "chunk" 1, Op.fire "error" 2, Op.fire "chunk" 3,
         Op.next, Op.next, Op.next] : AsyncEventIterator Nat).log =
      [(0, Completion.resolved (some (EventEntry.mk "chunk" (some 1))) false),
       (1, Completion.rejected (some 2)),
       (2, Completion.resolved (some (EventEntry.mk "chunk" (some 3))) false)] ∧
     (run (init ["chunk"] (some eagerOptions))
        [Op.fire "chunk" 1, Op.fire "error" 2, Op.fire "chunk" 3,
         Op.next, Op.next, Op.next] : AsyncEventIterator Nat).listening = true ∧
     (run (init ["chunk"] (some eagerOptions))
        [Op.fire "chunk" 1, Op.fire "error" 2, Op.fire "chunk" 3,
         Op.next, Op.next, Op.next] : AsyncEventIterator Nat).emitterListeners =
      [("chunk", 0), ("done", 1), ("error", 2)]) ∧
    ((run (init ["chunk"] (some eagerOptions))
        [Op.next, Op.next, Op.fire "chunk" 1, Op.fire "error" 2, Op.fire "chunk" 3,
         Op.next] : AsyncEventIterator Nat).log =
      [(0, Completion.resolved (some (EventEntry.mk "chunk" (some 1))) false),
       (1, Completion.rejected (some 2)),
       (2, Completion.resolved (some (EventEntry.mk "chunk" (some 3))) false)] ∧
     (run (init ["chunk"] (some eagerOptions))
        [Op.next, Op.next, Op.fire "chunk" 1, Op.fire "error" 2, Op.fire "chunk" 3,
         Op.next] : AsyncEventIterator Nat).listening = true ∧
     (run (init ["chunk"] (some eagerOptions))
        [Op.next, Op.next, Op.fire "chunk" 1, Op.fire "error" 2, Op.fire "chunk" 3,
         Op.next] : AsyncEventIterator Nat).emitterListeners =
      [("chunk", 0), ("done", 1), ("error", 2)])) :=
  ⟨by decide, by decide,
   c10_error_keeps_listening "chunk" 1 2 3 (by decide) (by decide)⟩

/-- Claim C4 witness: the error-after-entry scenario realised on channel
chunk with payloads 1 and 2. -/
theorem c4_error_in_queue_position_witness :
    ("chunk" : String) ≠ "done" ∧ ("chunk" : String) ≠ "error" ∧
    ((run (init ["chunk"] (some eagerOptions))
        [Op.fire "chunk" 1, Op.fire "error" 2, Op.next, Op.next]
      : AsyncEventIterator Nat).log =
      [(0, Completion.resolved (some (EventEntry.mk "chunk" (some 1))) false),
       (1, Completion.rejected (some 2))] ∧
     (run (init ["chunk"] (some eagerOptions))
        [Op.fire "chunk" 1, Op.fire "error" 2, Op.next, Op.next]
      : AsyncEventIterator Nat).promiseQueue = [] ∧
     (run (init ["chunk"] (some eagerOptions))
        [Op.fire "chunk" 1, Op.fire "error" 2, Op.next, Op.next]
      : AsyncEventIterator Nat).eventQueue = []) :=
  ⟨by decide, by decide,
   c4_error_in_queue_position "chunk" 1 2 (by decide) (by decide)⟩

/-- Claim C9 counterexample: duplicates are erroneous, not redundant; with
the channel listed twice, one notification yields two entries (not exactly
one), and after detach one handler registered by the bridge is still
attached to the emitter (detach does not remove every handler). -/
theorem c9_counterexample :
    (run (init ["chunk", "chunk"] (some eagerOptions)) [Op.fire "chunk" 1]
      : AsyncEventIterator Nat).eventQueue =
      [EventEntry.mk "chunk" (some 1), EventEntry.mk "chunk" (some 1)] ∧
    (run (init ["chunk", "chunk"] (some eagerOptions)) [Op.fire "chunk" 1, Op.ret]
      : AsyncEventIterator Nat).emitterListeners = [("chunk", 0)] := by
  exact ⟨by decide, by decide⟩

/-- Claim C9 (amended): a duplicated channel name registers one emitter
listener per occurrence while the listeners object keeps only the last, so
each notification on that channel yields one entry per occurrence, and
detach removes only the last registered handler of that name: after stop()
the first duplicate handler is still registered on the emitter. -/
theorem c9_duplicate_channels (c : String) (a : α)
    (h1 : c ≠ "done") (h2 : c ≠ "error") :
    (run (init [c, c] (some eagerOptions)) [Op.fire c a]
      : AsyncEventIterator α).eventQueue =
      [EventEntry.mk c (some a), EventEntry.mk c (some a)] ∧
    (run (init [c, c] (some eagerOptions)) [Op.fire c a, Op.ret]
      : AsyncEventIterator α).emitterListeners = [(c, 0)] ∧
    (run (init [c, c] (some eagerOptions)) [Op.fire c a, Op.ret]
      : AsyncEventIterator α).listening = false := by
  have v0 : (init [c, c] (some eagerOptions) : AsyncEventIterator α) = eagerDup c :=
    init_dup_eager c
  have w1 : pushEvent (eagerDup c : AsyncEventIterator α) a c =
      ({ (eagerDup c : AsyncEventIterator α) with
          eventQueue := [EventEntry.mk c (some a)] } : AsyncEventIterator α) := by
    rw [pushEvent_nil rfl]
    rfl
  have w2 : pushEvent ({ (eagerDup c : AsyncEventIterator α) with
        eventQueue := [EventEntry.mk c (some a)] } : AsyncEventIterator α) a c =
      ({ (eagerDup c : AsyncEventIterator α) with
          eventQueue := [EventEntry.mk c (some a), EventEntry.mk c (some a)] }
        : AsyncEventIterator α) := by
    rw [pushEvent_nil rfl]
    rfl
  have v1 : step (eagerDup c : AsyncEventIterator α) (Op.fire c a) =
      ({ (eagerDup c : AsyncEventIterator α) with
          eventQueue := [EventEntry.mk c (some a), EventEntry.mk c (some a)] }
        : AsyncEventIterator α) := by
    show fire (eagerDup c) c a = _
    rw [fire_dup_watched c a rfl h1 h2, w1, w2]
  have v2 : step ({ (eagerDup c : AsyncEventIterator α) with
        eventQueue := [EventEntry.mk c (some a), EventEntry.mk c (some a)] }
      : AsyncEventIterator α) Op.ret =
      ({ (eagerDup c : AsyncEventIterator α) with
          listening := false, listeners := [], doneListener := none,
          errorListener := none, emitterListeners := [(c, 0)], nextCallId := 1,
          log := [(0, Completion.resolved (some (EventEntry.mk "done" none)) true)] }
        : AsyncEventIterator α) := by
    show returnOp { ({ (eagerDup c : AsyncEventIterator α) with
        eventQueue := [EventEntry.mk c (some a), EventEntry.mk c (some a)] }
      : AsyncEventIterator α) with nextCallId := 0 + 1 } 0 = _
    unfold returnOp drain drainFlush removeEventListeners removeNameListeners
      removeDoneListener removeErrorListener removeOneListener jsOr
    simp [eagerDup, eagerOptions, eraseEntry]
  have hrun1 : run (init [c, c] (some eagerOptions)) [Op.fire c a] =
      ({ (eagerDup c : AsyncEventIterator α) with
          eventQueue := [EventEntry.mk c (some a), EventEntry.mk c (some a)] }
        : AsyncEventIterator α) := by
    simp only [run, List.foldl]
    rw [v0, v1]
  have hrun2 : run (init [c, c] (some eagerOptions)) [Op.fire c a, Op.ret] =
      ({ (eagerDup c : AsyncEventIterator α) with
          listening := false, listeners := [], doneListener := none,
          errorListener := none, emitterListeners := [(c, 0)], nextCallId := 1,
          log := [(0, Completion.resolved (some (EventEntry.mk "done" none)) true)] }
        : AsyncEventIterator α) := by
    simp only [run, List.foldl]
    rw [v0, v1, v2]
  rw [hrun1, hrun2]
  exact ⟨rfl, rfl, rfl⟩

/-- Claim C9 witness: the duplicate-channel behaviour realised on channel
chunk with payload 1. -/
theorem c9_duplicate_channels_witness :
    ("chunk" : String) ≠ "done" ∧ ("chunk" : String) ≠ "error" ∧
    ((run (init ["chunk", "chunk"] (some eagerOptions)) [Op.fire "chunk" 1]
        : AsyncEventIterator Nat).eventQueue =
      [EventEntry.mk "chunk" (some 1), EventEntry.mk "chunk" (some 1)] ∧
     (run (init ["chunk", "chunk"] (some eagerOptions)) [Op.fire "chunk" 1, Op.ret]
        : AsyncEventIterator Nat).emitterListeners = [("chunk", 0)] ∧
     (run (init ["chunk", "chunk"] (some eagerOptions)) [Op.fire "chunk" 1, Op.ret]
        : AsyncEventIterator Nat).listening = false) :=
  ⟨by decide, by decide, c9_duplicate_channels "chunk" 1 (by decide) (by decide)⟩
